import Mathlib

/-!
Verification of the worker protocol stack of the `trends` repository.

This file gives a shallow embedding, in Lean 4, of the parts of
`scripts/worker.py` and `scripts/refresh_sample.py` that the specification's
claims are about:

* the identity-resolution chain `derive_external_id` together with its helpers
  `_read_str`, `_normalize_token` and `_normalize_profile_url`, including
  faithful models of the Python standard-library functions they use
  (`urllib.parse.urlsplit`, `parse_qsl`, `urlencode`/`quote_plus`, `unquote`,
  and `json.dumps(..., sort_keys=True)`);
* the CDP client (`CDPClient.call`, `CDPClient._handle_event`) modelled over an
  explicit inbound stream of timestamped frames;
* the polling helper `wait_for`, modelled over the list of evaluation outcomes
  observed at the poll instants that fit before the deadline;
* the multi-page orchestrator `execute_scrape_job` and the worker lifecycle
  (`process_task`, `worker_loop`), modelled over environments that supply the
  outcome of each external interaction, producing explicit event traces.

Conventions: JSON-decoded Python values are the inductive `Json` (numbers are
modelled as integers); Python exceptions are the inductive `PyExc` and fallible
code returns `Except PyExc`; `time.time()`-bounded waits are modelled by the
finite list of interactions that occur before the deadline; the MD5 digest used
as the last resort of the identity chain is an explicit function parameter
(`md5_hexdigest`), since only the string it is applied to matters for the
claims.  String case-mapping and trimming are modelled for ASCII data.
-/

/-- JSON-decoded Python values (numbers restricted to integers). -/
inductive Json where
  | null
  | bool (b : Bool)
  | int (n : Int)
  | str (s : String)
  | arr (xs : List Json)
  | obj (kvs : List (String × Json))

/-- Python truthiness of a JSON-decoded value. -/
def truthy : Json → Bool
  | .null => false
  | .bool b => b
  | .int n => n != 0
  | .str s => s != ""
  | .arr xs => !xs.isEmpty
  | .obj kvs => !kvs.isEmpty

/-- Python truthiness of an optional JSON value (`None` for `none`). -/
def truthyOpt : Option Json → Bool
  | none => false
  | some v => truthy v

/-- A Python dict with string keys, as produced by JSON decoding. -/
abbrev Record := List (String × Json)

/-- `d.get(k)` on a Python dict: `none` when the key is missing. -/
def dictGet (r : Record) (k : String) : Option Json :=
  (r.find? (fun kv => kv.1 == k)).map (fun kv => kv.2)

/-- Exceptions that the modelled Python code can raise. -/
inductive PyExc where
  | cdp (msg : String)
  | valueError (msg : String)
  | cancelled
  | connClosed
  | queue (msg : String)
  | typeErr (msg : String)
  | keyboard
deriving Repr, DecidableEq

/-- Python distinguishes `Exception` subclasses from bare `BaseException`s such
as `KeyboardInterrupt`; only the former are caught by `except Exception`. -/
def PyExc.isException : PyExc → Bool
  | .keyboard => false
  | _ => true

/-- The message attached to an exception, as `str(e)` would render it. -/
def PyExc.msg : PyExc → String
  | .cdp m => m
  | .valueError m => m
  | .cancelled => "Task was cancelled by user"
  | .connClosed => "connection closed"
  | .queue m => m
  | .typeErr m => m
  | .keyboard => "KeyboardInterrupt"

/-- Lower-case hexadecimal digit. -/
def hexDigitLower (n : Nat) : Char :=
  if n < 10 then Char.ofNat (48 + n) else Char.ofNat (97 + (n - 10))

/-- Upper-case hexadecimal digit. -/
def hexDigitUpper (n : Nat) : Char :=
  if n < 10 then Char.ofNat (48 + n) else Char.ofNat (65 + (n - 10))

/-- Four lower-case hex digits, as used by `json.dumps` unicode escapes. -/
def hex4 (n : Nat) : String :=
  String.mk [hexDigitLower (n / 4096 % 16), hexDigitLower (n / 256 % 16),
             hexDigitLower (n / 16 % 16), hexDigitLower (n % 16)]

/-- Escape of a single character in a JSON string literal produced by
`json.dumps` with the default `ensure_ascii=True`. -/
def jsonEscapeChar (c : Char) : String :=
  if c = '"' then "\\\""
  else if c = '\\' then "\\\\"
  else if c = '\n' then "\\n"
  else if c = '\t' then "\\t"
  else if c = '\r' then "\\r"
  else if c = '\x08' then "\\b"
  else if c = '\x0c' then "\\f"
  else if c.toNat < 32 then "\\u" ++ hex4 c.toNat
  else if c.toNat < 127 then String.singleton c
  else if c.toNat ≤ 65535 then "\\u" ++ hex4 c.toNat
  else
    let n := c.toNat - 65536
    "\\u" ++ hex4 (55296 + n / 1024) ++ "\\u" ++ hex4 (56320 + n % 1024)

/-- A JSON string literal as rendered by `json.dumps`. -/
def jsonQuote (s : String) : String :=
  "\"" ++ String.join (s.data.map jsonEscapeChar) ++ "\""

/-- Python `<` on strings: lexicographic comparison by code point. -/
def charListLt : List Char → List Char → Bool
  | [], [] => false
  | [], _ :: _ => true
  | _ :: _, [] => false
  | a :: as, b :: bs => if a = b then charListLt as bs else decide (a < b)

/-- Python `a < b` on strings. -/
def pyStrLt (a b : String) : Bool := charListLt a.data b.data

/-- Python `a <= b` on strings (the negation of `b < a`, as in any total
order). -/
def pyStrLe (a b : String) : Bool := !(pyStrLt b a)

/-- Comparison used by Python `sorted` on the keys of a dict. -/
def keyLe (a b : String × String) : Prop := pyStrLe a.1 b.1 = true

instance : DecidableRel keyLe := fun _ _ => inferInstanceAs (Decidable (_ = true))

mutual

/-- `json.dumps(v, sort_keys=True)` with default separators and
`ensure_ascii=True`.  Object members are rendered and then ordered by key,
which agrees with CPython because dict keys are unique. -/
def json_dumps : Json → String
  | .null => "null"
  | .bool true => "true"
  | .bool false => "false"
  | .int n => toString n
  | .str s => jsonQuote s
  | .arr xs => "[" ++ String.intercalate ", " (json_dumpsList xs) ++ "]"
  | .obj kvs =>
      "\x7b" ++
        String.intercalate ", "
          ((List.insertionSort keyLe (json_dumpsPairs kvs)).map
            (fun kv => jsonQuote kv.1 ++ ": " ++ kv.2)) ++
      "\x7d"

/-- Renders every element of a JSON array. -/
def json_dumpsList : List Json → List String
  | [] => []
  | x :: xs => json_dumps x :: json_dumpsList xs

/-- Renders every member value of a JSON object, keeping the raw key. -/
def json_dumpsPairs : List (String × Json) → List (String × String)
  | [] => []
  | kv :: kvs => (kv.1, json_dumps kv.2) :: json_dumpsPairs kvs

end

/-- Python `str.strip()` whitespace (ASCII; Unicode spaces are out of the
modelled data). -/
def pyWs (c : Char) : Bool :=
  c = ' ' || c = '\t' || c = '\n' || c = '\r' || c = '\x0b' || c = '\x0c'

/-- Python `s.strip()`. -/
def pyStrip (s : String) : String :=
  String.mk (((s.data.dropWhile pyWs).reverse.dropWhile pyWs).reverse)

/-- Python `s.lower()` (ASCII case mapping). -/
def pyLower (s : String) : String :=
  String.mk (s.data.map Char.toLower)

/-- Python `s.startswith(pre)`. -/
def pyStartsWith (s pre : String) : Bool :=
  pre.data.isPrefixOf s.data

/-- Python `s[n:]`. -/
def pyDrop (s : String) (n : Nat) : String :=
  String.mk (s.data.drop n)

/-- Splits a character list on every occurrence of `c` (Python
`s.split(c)`). -/
def splitChar (c : Char) : List Char → List (List Char)
  | [] => [[]]
  | x :: xs =>
      match splitChar c xs with
      | [] => [[]]
      | g :: gs => if x = c then [] :: g :: gs else (x :: g) :: gs

/-- Splits a character list at the first occurrence of `c`; `none` when `c`
does not occur. -/
def splitAtFirst (c : Char) : List Char → Option (List Char × List Char)
  | [] => none
  | x :: xs =>
    if x = c then some ([], xs)
    else
      match splitAtFirst c xs with
      | some ab => some (x :: ab.1, ab.2)
      | none => none

/-- The result of `urllib.parse.urlsplit`. -/
structure SplitResult where
  scheme : String
  netloc : String
  path : String
  query : String
  fragment : String
deriving Repr, DecidableEq

/-- Characters allowed in a URL scheme (`urllib.parse.scheme_chars`). -/
def schemeChar (c : Char) : Bool :=
  c.isAlpha || c.isDigit || c = '+' || c = '-' || c = '.'

/-- The characters `urlsplit` deletes from the URL before parsing. -/
def unsafeUrlChar (c : Char) : Bool :=
  c = '\t' || c = '\r' || c = '\n'

/-- The scheme split of `urlsplit`: a scheme is recognised when the text
before the first `:` is non-empty, starts with an ASCII letter and consists of
scheme characters only. -/
def urlsplitScheme (u : List Char) : List Char × List Char :=
  match splitAtFirst ':' u with
  | some ab =>
      match ab.1 with
      | c :: cs =>
          if c.isAlpha && (c :: cs).all schemeChar then
            ((c :: cs).map Char.toLower, ab.2)
          else ([], u)
      | [] => ([], u)
  | none => ([], u)

/-- The netloc split of `urlsplit`: the authority runs from after `//` to the
first `/`, `?` or `#`. -/
def urlsplitNetloc (rest : List Char) : List Char × List Char :=
  match rest with
  | '/' :: '/' :: r =>
      (r.takeWhile (fun c => c ≠ '/' ∧ c ≠ '?' ∧ c ≠ '#'),
       r.dropWhile (fun c => c ≠ '/' ∧ c ≠ '?' ∧ c ≠ '#'))
  | _ => ([], rest)

/-- The fragment split of `urlsplit` (with `allow_fragments=True`). -/
def urlsplitFragment (rest2 : List Char) : List Char × List Char :=
  match splitAtFirst '#' rest2 with
  | some ab => ab
  | none => (rest2, [])

/-- The query split of `urlsplit`. -/
def urlsplitQuery (rest3 : List Char) : List Char × List Char :=
  match splitAtFirst '?' rest3 with
  | some ab => ab
  | none => (rest3, [])

/-- Assembles the `urlsplit` result once the authority passed the bracket
check. -/
def urlsplitAssemble (scheme netloc rest2 : List Char) : SplitResult :=
  let restFrag := urlsplitFragment rest2
  let pathQuery := urlsplitQuery restFrag.1
  ⟨String.mk scheme, String.mk netloc, String.mk pathQuery.1,
   String.mk pathQuery.2, String.mk restFrag.2⟩

/-- `urllib.parse.urlsplit(url)` (with the default `allow_fragments=True`).
Raises `ValueError` on a mismatched square bracket in the authority, as every
CPython version does.  The NFKC netloc check, which concerns only exotic
non-ASCII input, is not modelled. -/
def urlsplit (url : String) : Except PyExc SplitResult :=
  let u := url.data.filter (fun c => !unsafeUrlChar c)
  let schemeRest := urlsplitScheme u
  let netlocRest := urlsplitNetloc schemeRest.2
  let netloc := netlocRest.1
  if (netloc.contains '[' ∧ ¬ netloc.contains ']')
      ∨ (netloc.contains ']' ∧ ¬ netloc.contains '[') then
    .error (.valueError "Invalid IPv6 URL")
  else
    .ok (urlsplitAssemble schemeRest.1 netloc netlocRest.2)

/-- UTF-8 encoding of a code point, as a list of byte values. -/
def utf8Bytes (n : Nat) : List Nat :=
  if n < 128 then [n]
  else if n < 2048 then [192 + n / 64, 128 + n % 64]
  else if n < 65536 then [224 + n / 4096, 128 + n / 64 % 64, 128 + n % 64]
  else [240 + n / 262144, 128 + n / 4096 % 64, 128 + n / 64 % 64, 128 + n % 64]

/-- Characters `urllib.parse.quote` never escapes (`_ALWAYS_SAFE`). -/
def alwaysSafeChar (c : Char) : Bool :=
  c.isAlphanum || c = '_' || c = '.' || c = '-' || c = '~'

/-- `urllib.parse.quote_plus(s)` with default arguments: spaces become `+`,
all other non-safe characters are percent-encoded from their UTF-8 bytes. -/
def quote_plus (s : String) : String :=
  String.mk (s.data.flatMap (fun c =>
    if alwaysSafeChar c then [c]
    else if c = ' ' then ['+']
    else (utf8Bytes c.toNat).flatMap
      (fun b => ['%', hexDigitUpper (b / 16), hexDigitUpper (b % 16)])))

/-- `urllib.parse.urlencode` on a list of string pairs (default quoting). -/
def urlencode (pairs : List (String × String)) : String :=
  String.intercalate "&" (pairs.map (fun kv => quote_plus kv.1 ++ "=" ++ quote_plus kv.2))

/-- Hexadecimal digit test, both cases. -/
def isHexChar (c : Char) : Bool :=
  c.isDigit || ('a' ≤ c ∧ c ≤ 'f') || ('A' ≤ c ∧ c ≤ 'F')

/-- Value of a hexadecimal digit. -/
def hexCharVal (c : Char) : Nat :=
  if c.isDigit then c.toNat - 48
  else if 'a' ≤ c then c.toNat - 87
  else c.toNat - 55

/-- Do the next two characters form a valid hex escape body? -/
def pctValid : List Char → Bool
  | a :: b :: _ => isHexChar a && isHexChar b
  | _ => false

/-- Byte value of a valid hex escape body. -/
def pctByte : List Char → Nat
  | a :: b :: _ => 16 * hexCharVal a + hexCharVal b
  | _ => 0

/-- First pass of `urllib.parse.unquote`, with a step-count fuel so the
recursion is structural: a `%` followed by two hex digits becomes a byte,
everything else stays a literal character. -/
def unquoteScanF : Nat → List Char → List (Nat ⊕ Char)
  | 0, _ => []
  | _, [] => []
  | fuel + 1, c :: rest =>
      if c = '%' ∧ pctValid rest then
        .inl (pctByte rest) :: unquoteScanF fuel (rest.drop 2)
      else .inr c :: unquoteScanF fuel rest

/-- First pass of `unquote` (each step consumes at least one character, so a
fuel equal to the length is always enough). -/
def unquoteScan (cs : List Char) : List (Nat ⊕ Char) :=
  unquoteScanF cs.length cs

/-- The U+FFFD replacement character. -/
def replacementChar : Char := Char.ofNat 65533

/-- Is `b` a UTF-8 continuation byte? -/
def contByte (b : Nat) : Bool := 128 ≤ b ∧ b < 192

/-- Is the second byte of a two-byte sequence present and valid? -/
def u8b2ok : List Nat → Bool
  | b2 :: _ => contByte b2
  | _ => false

/-- Decoded value of a two-byte sequence. -/
def u8char2 (b : Nat) : List Nat → Char
  | b2 :: _ => Char.ofNat ((b - 192) * 64 + (b2 - 128))
  | _ => replacementChar

/-- Are the trailing bytes of a three-byte sequence present and valid
(excluding overlong encodings and surrogates)? -/
def u8b3ok (b : Nat) : List Nat → Bool
  | b2 :: b3 :: _ =>
      (if b = 224 then 160 ≤ b2 ∧ b2 ≤ 191
       else if b = 237 then 128 ≤ b2 ∧ b2 ≤ 159
       else contByte b2) ∧ contByte b3
  | _ => false

/-- Decoded value of a three-byte sequence. -/
def u8char3 (b : Nat) : List Nat → Char
  | b2 :: b3 :: _ => Char.ofNat ((b - 224) * 4096 + (b2 - 128) * 64 + (b3 - 128))
  | _ => replacementChar

/-- Are the trailing bytes of a four-byte sequence present and valid? -/
def u8b4ok (b : Nat) : List Nat → Bool
  | b2 :: b3 :: b4 :: _ =>
      (if b = 240 then 144 ≤ b2 ∧ b2 ≤ 191
       else if b = 244 then 128 ≤ b2 ∧ b2 ≤ 143
       else contByte b2) ∧ contByte b3 ∧ contByte b4
  | _ => false

/-- Decoded value of a four-byte sequence. -/
def u8char4 (b : Nat) : List Nat → Char
  | b2 :: b3 :: b4 :: _ =>
      Char.ofNat ((b - 240) * 262144 + (b2 - 128) * 4096 + (b3 - 128) * 64 + (b4 - 128))
  | _ => replacementChar

/-- UTF-8 decoding with replacement of invalid sequences, as in Python's
`bytes.decode("utf-8", errors="replace")` (invalid sequences, which no claim
exercises, may differ in the number of replacement characters emitted).  The
fuel makes the recursion structural; each step consumes at least one byte. -/
def utf8DecodeReplaceF : Nat → List Nat → List Char
  | 0, _ => []
  | _, [] => []
  | fuel + 1, b :: rest =>
      if b < 128 then Char.ofNat b :: utf8DecodeReplaceF fuel rest
      else if 194 ≤ b ∧ b ≤ 223 then
        if u8b2ok rest then u8char2 b rest :: utf8DecodeReplaceF fuel (rest.drop 1)
        else replacementChar :: utf8DecodeReplaceF fuel rest
      else if 224 ≤ b ∧ b ≤ 239 then
        if u8b3ok b rest then u8char3 b rest :: utf8DecodeReplaceF fuel (rest.drop 2)
        else replacementChar :: utf8DecodeReplaceF fuel rest
      else if 240 ≤ b ∧ b ≤ 244 then
        if u8b4ok b rest then u8char4 b rest :: utf8DecodeReplaceF fuel (rest.drop 3)
        else replacementChar :: utf8DecodeReplaceF fuel rest
      else replacementChar :: utf8DecodeReplaceF fuel rest

/-- UTF-8 decoding with replacement. -/
def utf8DecodeReplace (bs : List Nat) : List Char :=
  utf8DecodeReplaceF bs.length bs

/-- Decodes a pending run of percent-bytes (collected in reverse). -/
def unquoteFlush (pending : List Nat) : List Char :=
  utf8DecodeReplace pending.reverse

/-- Second pass of `unquote`: maximal byte runs are UTF-8 decoded. -/
def unquoteGo (pending : List Nat) : List (Nat ⊕ Char) → List Char
  | [] => unquoteFlush pending
  | .inl b :: rest => unquoteGo (b :: pending) rest
  | .inr c :: rest => unquoteFlush pending ++ c :: unquoteGo [] rest

/-- `urllib.parse.unquote(s)` with default UTF-8 decoding. -/
def unquote (s : String) : String :=
  String.mk (unquoteGo [] (unquoteScan s.data))

/-- Replaces `+` with a space, as `parse_qsl` does before unquoting. -/
def plusToSpace (s : String) : String :=
  String.mk (s.data.map (fun c => if c = '+' then ' ' else c))

/-- `urllib.parse.unquote_plus`. -/
def unquote_plus (s : String) : String := unquote (plusToSpace s)

/-- `s.partition("=")` restricted to what `parse_qsl` needs: `none` when no
`=` occurs. -/
def pyPartitionEq (s : String) : Option (String × String) :=
  (splitAtFirst '=' s.data).map (fun ab => (String.mk ab.1, String.mk ab.2))

/-- `urllib.parse.parse_qsl(qs, keep_blank_values=True)` with the modern `&`
separator. -/
def parse_qsl (qs : String) : List (String × String) :=
  ((splitChar '&' qs.data).map String.mk).filterMap (fun nv =>
    if nv = "" then none
    else
      match pyPartitionEq nv with
      | none => some (unquote_plus nv, "")
      | some p => some (unquote_plus p.1, unquote_plus p.2))

/-- The order Python `sorted` imposes on `(key, value)` string pairs:
lexicographic comparison of the tuples. -/
def pyPairLe (a b : String × String) : Prop :=
  pyStrLt a.1 b.1 = true ∨ (a.1 = b.1 ∧ pyStrLe a.2 b.2 = true)

instance : DecidableRel pyPairLe := fun _ _ =>
  inferInstanceAs (Decidable (_ ∨ (_ ∧ _)))

/-- The parsed query pairs of `_normalize_profile_url`: `parse_qsl` with blank
values kept, `utm_*` keys removed, sorted as Python `sorted` sorts pairs. -/
def query_pairs_sorted (query : String) : List (String × String) :=
  List.insertionSort pyPairLe
    ((parse_qsl query).filter (fun kv => !(pyStartsWith (pyLower kv.1) "utm_")))

/-- `s.rstrip("/")`. -/
def pyRstripSlash (s : String) : String :=
  String.mk ((s.data.reverse.dropWhile (fun c => c = '/')).reverse)

/-- The literal no-op hrefs `_normalize_profile_url` treats as absent. -/
def noopHrefs : List String := ["javascript:;", "javascript:void(0)", "#"]

/-- The parse step of `_normalize_profile_url`: parse the trimmed value and,
when neither a netloc nor a scheme was found, re-parse with an `https://`
prefix. -/
def urlsplitEffective (trimmed : String) : Except PyExc SplitResult :=
  match urlsplit trimmed with
  | .error e => .error e
  | .ok p =>
      if p.netloc = "" ∧ p.scheme = "" then urlsplit ("https://" ++ trimmed)
      else .ok p

/-- The normalized form built by the netloc branch of
`_normalize_profile_url`. -/
def normalizedNetlocForm (parsed : SplitResult) : String :=
  let host := pyLower parsed.netloc
  let path := let p := pyRstripSlash parsed.path; if p = "" then "/" else p
  let query := urlencode (query_pairs_sorted parsed.query)
  let suffix := if query ≠ "" then "?" ++ query else ""
  pyLower (host ++ path ++ suffix)

/-- `worker._normalize_profile_url`. -/
def _normalize_profile_url (value : String) : Except PyExc (Option String) :=
  let trimmed := pyStrip value
  if trimmed = "" then .ok none
  else
    let lowered := pyLower trimmed
    if lowered ∈ noopHrefs then .ok none
    else
      match urlsplitEffective trimmed with
      | .error e => .error e
      | .ok parsed =>
          if parsed.netloc ≠ "" then .ok (some (normalizedNetlocForm parsed))
          else
            let fb0 := lowered
            let fb1 := if pyStartsWith fb0 "http://" then pyDrop fb0 7 else fb0
            let fb2 := if pyStartsWith fb1 "https://" then pyDrop fb1 8 else fb1
            let fb3 :=
              match splitAtFirst '#' fb2.data with
              | some ab => String.mk ab.1
              | none => fb2
            let fb4 := pyRstripSlash fb3
            .ok (if fb4 = "" then none else some fb4)

/-- `worker._read_str`: strings are trimmed (empty becomes `None`), non-bool
numbers are stringified, everything else is `None`. -/
def _read_str : Option Json → Option String
  | some (.str s) => let t := pyStrip s; if t = "" then none else some t
  | some (.int n) => some (toString n)
  | _ => none

/-- `worker._normalize_token`. -/
def _normalize_token (value : String) : Option String :=
  let t := pyStrip value
  if t = "" then none else some (pyLower t)

/-- Python `a or b` on optional strings (an empty string is falsy). -/
def pyOrStr (a b : Option String) : Option String :=
  match a with
  | some s => if s = "" then b else some s
  | none => b

/-- The profile-URL alias chain of `derive_external_id`. -/
def profile_url_alias (resume : Record) : Option String :=
  pyOrStr (_read_str (dictGet resume "profileUrl"))
    (pyOrStr (_read_str (dictGet resume "profile_url"))
      (pyOrStr (_read_str (dictGet resume "profileURL"))
        (_read_str (dictGet resume "url"))))

/-- The resume-id alias chain of `derive_external_id`. -/
def resume_id_alias (resume : Record) : Option String :=
  pyOrStr (_read_str (dictGet resume "resumeId")) (_read_str (dictGet resume "resume_id"))

/-- The per-user-id alias chain of `derive_external_id`. -/
def per_user_id_alias (resume : Record) : Option String :=
  pyOrStr (_read_str (dictGet resume "perUserId")) (_read_str (dictGet resume "per_user_id"))

/-- The external-id alias chain of `derive_external_id`. -/
def external_id_alias (resume : Record) : Option String :=
  pyOrStr (_read_str (dictGet resume "externalId")) (_read_str (dictGet resume "external_id"))

/-- One token step of the fallback chain: if the alias value is truthy and its
normalized form is truthy, return the normalized form, else continue. -/
def tokenStep (v : Option String) (next : String) : String :=
  match v with
  | some s =>
      if s ≠ "" then
        match _normalize_token s with
        | some n => if n ≠ "" then n else next
        | none => next
      else next
  | none => next

/-- The key produced when the profile-URL step of `derive_external_id` does
not apply: the resume-id, per-user-id and external-id steps in order, then the
content digest of the canonical JSON form. -/
def derive_fallback_key (md5_hexdigest : String → String) (resume : Record) : String :=
  tokenStep (resume_id_alias resume)
    (tokenStep (per_user_id_alias resume)
      (tokenStep (external_id_alias resume)
        (md5_hexdigest (json_dumps (Json.obj resume)))))

/-- `worker.derive_external_id`.  The MD5 hex digest is passed in as
`md5_hexdigest`; the string it is applied to is exactly
`json.dumps(resume, sort_keys=True)`. -/
def derive_external_id (md5_hexdigest : String → String) (resume : Record) :
    Except PyExc String :=
  let k1 := derive_fallback_key md5_hexdigest resume
  match profile_url_alias resume with
  | some u =>
      if u ≠ "" then
        match _normalize_profile_url u with
        | .error e => .error e
        | .ok (some n) => if n ≠ "" then .ok n else .ok k1
        | .ok none => .ok k1
      else .ok k1
  | none => .ok k1

mutual

/-- Structural equality of JSON values (Python `==` on decoded JSON data). -/
def Json.beq : Json → Json → Bool
  | .null, .null => true
  | .bool a, .bool b => a == b
  | .int a, .int b => a == b
  | .str a, .str b => a == b
  | .arr a, .arr b => Json.beqList a b
  | .obj a, .obj b => Json.beqPairs a b
  | _, _ => false

/-- Elementwise equality of JSON arrays. -/
def Json.beqList : List Json → List Json → Bool
  | [], [] => true
  | x :: xs, y :: ys => Json.beq x y && Json.beqList xs ys
  | _, _ => false

/-- Elementwise equality of JSON object members. -/
def Json.beqPairs : List (String × Json) → List (String × Json) → Bool
  | [], [] => true
  | x :: xs, y :: ys => x.1 == y.1 && Json.beq x.2 y.2 && Json.beqPairs xs ys
  | _, _ => false

end

instance : BEq Json := ⟨Json.beq⟩

/-- An inbound CDP frame: a response (has an `id`; `result` may be absent and
an `error` field may be present) or an event (has a `method`; `params` may be
absent). -/
inductive Frame where
  | response (id : Nat) (result : Option Json) (hasError : Bool)
  | event (method : String) (params : Option Json)

/-- The execution-context registry `CDPClient.contexts`, an insertion-ordered
dict keyed by the announced context id. -/
abbrev Registry := List (Json × Json)

/-- Field lookup on a JSON object (`none` for other values or missing keys). -/
def jGet (j : Json) (k : String) : Option Json :=
  match j with
  | .obj kvs => dictGet kvs k
  | _ => none

/-- `d.get(k)` with Python's `None` default. -/
def jGetD (j : Json) (k : String) : Json := (jGet j k).getD .null

/-- `k in d` on a JSON object. -/
def hasKey (j : Json) (k : String) : Bool := (jGet j k).isSome

/-- Dict assignment `d[k] = v`: replaces in place or appends. -/
def registryInsert (ctxs : Registry) (k v : Json) : Registry :=
  if ctxs.any (fun kv => kv.1 == k) then
    ctxs.map (fun kv => if kv.1 == k then (k, v) else kv)
  else ctxs ++ [(k, v)]

/-- Dict removal `d.pop(k, None)`. -/
def registryPop (ctxs : Registry) (k : Json) : Registry :=
  ctxs.filter (fun kv => !(kv.1 == k))

/-- `CDPClient._handle_event`: updates the execution-context registry on the
three `Runtime` lifecycle events and ignores every other method. -/
def _handle_event (ctxs : Registry) (method : String) (params : Option Json) : Registry :=
  let ps := match params with
    | some p => if truthy p then p else .obj []
    | none => .obj []
  if method = "Runtime.executionContextCreated" then
    let context := jGetD ps "context"
    if truthy context ∧ hasKey context "id" then
      registryInsert ctxs (jGetD context "id") context
    else ctxs
  else if method = "Runtime.executionContextDestroyed" then
    let contextId := jGetD ps "executionContextId"
    if ctxs.any (fun kv => kv.1 == contextId) then registryPop ctxs contextId
    else ctxs
  else if method = "Runtime.executionContextsCleared" then []
  else ctxs

/-- `msg.get("result") or {}` on a response frame. -/
def pyOrEmptyObj (o : Option Json) : Json :=
  match o with
  | some v => if truthy v then v else .obj []
  | none => .obj []

/-- The outcome of one `CDPClient.call`: its result, the registry afterwards,
the event frames dispatched while waiting, and the response frames that were
read and discarded because their id did not match the request. -/
structure CallOut where
  result : Except PyExc Json
  contexts : Registry
  events : List (String × Option Json)
  dropped : List (Nat × Option Json)

/-- Timeout outcome of a `call`. -/
def timeoutOut (method : String) (ctxs : Registry) (evs : List (String × Option Json))
    (dropped : List (Nat × Option Json)) : CallOut :=
  ⟨.error (.cdp ("Timeout waiting for " ++ method)), ctxs, evs, dropped⟩

/-- The receive loop of `CDPClient.call` over the inbound stream: a list of
`(arrivalTime, frame)` pairs followed, if `closesAt` is set, by the socket
closing at that time.  Frames arriving at or after the deadline are never
seen (the bounded wait fires first); a socket close before the deadline
surfaces as the transport's `ConnectionClosed`, which `call` does not catch. -/
def callRecv (method : String) (request_id : Nat) (deadline : Nat) (closesAt : Option Nat)
    (now : Nat) (ctxs : Registry) (evs : List (String × Option Json))
    (dropped : List (Nat × Option Json)) : List (Nat × Frame) → CallOut
  | [] =>
      match closesAt with
      | some t =>
          if t < deadline then ⟨.error .connClosed, ctxs, evs, dropped⟩
          else timeoutOut method ctxs evs dropped
      | none => timeoutOut method ctxs evs dropped
  | (a, f) :: rest =>
      if deadline ≤ now then timeoutOut method ctxs evs dropped
      else if deadline ≤ a then timeoutOut method ctxs evs dropped
      else
        match f with
        | .event m p =>
            callRecv method request_id deadline closesAt a
              (_handle_event ctxs m p) (evs ++ [(m, p)]) dropped rest
        | .response i res herr =>
            if i = request_id then
              if herr then ⟨.error (.cdp (method ++ " failed")), ctxs, evs, dropped⟩
              else ⟨.ok (pyOrEmptyObj res), ctxs, evs, dropped⟩
            else
              callRecv method request_id deadline closesAt a
                ctxs evs (dropped ++ [(i, res)]) rest

/-- `CDPClient.call` with the clock starting at 0 and deadline `timeout`. -/
def CDPClient_call (method : String) (request_id : Nat) (timeout : Nat)
    (frames : List (Nat × Frame)) (closesAt : Option Nat) (ctxs : Registry) : CallOut :=
  callRecv method request_id timeout closesAt 0 ctxs [] [] frames

/-- `refresh_sample.wait_for`, over the list of `eval_json` outcomes at the
poll instants that fit before the deadline (the list running out is the
deadline elapsing).  A `CDPError` during a poll resets the last observation to
`None` and keeps polling; any other exception propagates; a truthy observation
returns early; at the deadline the last observation is returned. -/
def wait_for (polls : List (Except PyExc (Option Json))) (last : Option Json) :
    Except PyExc (Option Json) :=
  match polls with
  | [] => .ok last
  | q :: rest =>
      match q with
      | .error (.cdp _) => wait_for rest none
      | .error e => .error e
      | .ok v => if truthyOpt v then .ok v else wait_for rest v

/-- Observable actions of the orchestrator `execute_scrape_job`: a progress
callback invocation with its `(total, page)` arguments, and a successful
evaluation of the `goToNextPage` hook. -/
inductive Ev where
  | progress (count page : Nat)
  | goNext
deriving Repr, DecidableEq

/-- Environment of one run of `execute_scrape_job`: the outcome of each
external interaction, indexed by the page counter where relevant.  The I/O
helpers whose values the orchestrator never reads (`wait_for_results` and the
polyfill eval) are modelled by their outcome alone. -/
structure ScrapeEnv where
  initWait : Except PyExc Unit
  polyfill : Except PyExc Unit
  pageWait : Nat → Except PyExc Unit
  extractEval : Nat → Except PyExc (Option Json)
  goNextEval : Nat → Except PyExc (Option Json)
  advancePolls : Nat → List (Except PyExc (Option Json))
  progressRes : Nat → Nat → Except PyExc Unit

/-- The page loop of `execute_scrape_job`.  The fuel only makes the recursion
structural: the loop advances the page counter on every iteration (also after
a timed-out advance wait, whose falsy result the source discards) and stops at
`maxPages`, so the `maxPages + 1` fuel supplied by `execute_scrape_job` is
never exhausted. -/
def scrapeLoop (env : ScrapeEnv) (limit maxPages : Nat) (allowEmpty hasCb : Bool) :
    Nat → Nat → List Json → List Ev × Except PyExc (List Json)
  | 0, _, _ => ([], .error (.typeErr "fuel exhausted"))
  | fuel + 1, p, acc =>
    match env.pageWait p with
    | .error e => ([], .error e)
    | .ok _ =>
    match env.extractEval p with
    | .error e => ([], .error e)
    | .ok v =>
      let listed : Except PyExc (List Json) :=
        match v with
        | some (.arr rs) => .ok rs
        | _ =>
            if !allowEmpty && acc.isEmpty then
              .error (.cdp "Failed to extract resume data from the page.")
            else .ok []
      match listed with
      | .error e => ([], .error e)
      | .ok rs =>
        if rs.isEmpty && !allowEmpty && acc.isEmpty then
          ([], .error (.cdp "No resumes extracted. Ensure you are logged in and results are loaded."))
        else
          let acc2 := acc ++ rs
          let ev1 : List Ev := if hasCb then [.progress acc2.length p] else []
          let cbRes : Except PyExc Unit := if hasCb then env.progressRes acc2.length p else .ok ()
          match cbRes with
          | .error e => (ev1, .error e)
          | .ok _ =>
            if limit ≤ acc2.length then (ev1, .ok acc2)
            else if maxPages ≤ p then (ev1, .ok acc2)
            else
              let ev2 := ev1 ++ [.goNext]
              match env.goNextEval p with
              | .error e => (ev2, .error e)
              | .ok nv =>
                if !truthyOpt nv then (ev2, .ok acc2)
                else
                  match wait_for (env.advancePolls p) none with
                  | .error (.cdp _) => (ev2, .ok acc2)
                  | .error e => (ev2, .error e)
                  | .ok _ =>
                      let r := scrapeLoop env limit maxPages allowEmpty hasCb fuel (p + 1) acc2
                      (ev2 ++ r.1, r.2)

/-- `refresh_sample.execute_scrape_job`: the initial result wait and the
polyfill eval, then the page loop from page 1 with an empty accumulator. -/
def execute_scrape_job (env : ScrapeEnv) (limit maxPages : Nat)
    (allowEmpty hasCb : Bool) : List Ev × Except PyExc (List Json) :=
  match env.initWait with
  | .error e => ([], .error e)
  | .ok _ =>
  match env.polyfill with
  | .error e => ([], .error e)
  | .ok _ => scrapeLoop env limit maxPages allowEmpty hasCb (maxPages + 1) 1 []

/-- Observable queue-side actions of `process_task` and `worker_loop`:
heartbeats (with their state and optional last error), progress updates,
session and retry markers, submissions, completion calls, the poll backoff
sleep, and embedded orchestrator actions. -/
inductive QEv where
  | hb (state : String) (lastError : Option String)
  | progressUpd (current page : Nat)
  | openSession
  | retryNav
  | readyWait
  | resolveCtx
  | submit (count : Nat)
  | analysisDispatch
  | complete (status : String) (error : Option String)
  | sleep
  | orch (e : Ev)
deriving Repr, DecidableEq

/-- Sequencing of trace-producing fallible steps (a writer over `Except`). -/
def andThen {α β : Type} (x : List QEv × Except PyExc α)
    (f : α → List QEv × Except PyExc β) : List QEv × Except PyExc β :=
  match x.2 with
  | .error e => (x.1, .error e)
  | .ok a =>
      let y := f a
      (x.1 ++ y.1, y.2)

/-- A step with no interesting value: emits its marker events and its
outcome. -/
def liftStep (x : Except PyExc Unit) (evs : List QEv) : List QEv × Except PyExc Unit :=
  match x with
  | .ok _ => (evs, .ok ())
  | .error e => (evs, .error e)

/-- The page-side interactions of one `execute_scrape_job` attempt (everything
of `ScrapeEnv` except the progress callback, which `process_task` supplies). -/
structure PageIO where
  initWait : Except PyExc Unit
  polyfill : Except PyExc Unit
  pageWait : Nat → Except PyExc Unit
  extractEval : Nat → Except PyExc (Option Json)
  goNextEval : Nat → Except PyExc (Option Json)
  advancePolls : Nat → List (Except PyExc (Option Json))

/-- Combines page-side interactions with the worker's progress callback. -/
def mkScrapeEnv (pg : PageIO) (cb : Nat → Nat → Except PyExc Unit) : ScrapeEnv :=
  ⟨pg.initWait, pg.polyfill, pg.pageWait, pg.extractEval, pg.goNextEval, pg.advancePolls, cb⟩

/-- Environment of one `process_task` run: the parsed task configuration, the
outcome of each queue call and CDP interaction, and the page-side behaviour of
the two scrape attempts.  `parse` is the `int(config[...])` block that runs
before the `try` statement. -/
structure TaskEnv where
  parse : Except PyExc Unit
  limit : Nat
  maxPages : Nat
  autoAnalyze : Bool
  keyword : String
  progressOutcome : Nat → Nat → Except PyExc Unit
  sessionOpen : Except PyExc Unit
  urlEval : Except PyExc Unit
  page1 : PageIO
  statusEval1 : Except PyExc Unit
  navigate : Except PyExc Unit
  readyPolls : List (Except PyExc (Option Json))
  resolveAccessor : Except PyExc Bool
  page2 : PageIO
  statusEval2 : Except PyExc Unit
  urlEval2 : Except PyExc Unit
  digest : String → String
  submitOutcome : Except PyExc Unit
  searchQuery : Except PyExc (List Json)
  dispatchOutcome : Except PyExc Unit
  completeOk : Except PyExc Unit
  completeFailOutcome : Except PyExc Unit

/-- `worker.process_task.on_progress`: the `updateProgress` mutation, then a
`processing` heartbeat, then the cancellation check on the mutation's result.
A mutation failure raises before the heartbeat; a cancellation signal raises
after it. -/
def on_progress (outcome : Nat → Nat → Except PyExc Unit) (c p : Nat) :
    List QEv × Except PyExc Unit :=
  match outcome c p with
  | .ok _ => ([.progressUpd c p, .hb "processing" none], .ok ())
  | .error .cancelled => ([.progressUpd c p, .hb "processing" none], .error .cancelled)
  | .error e => ([.progressUpd c p], .error e)

/-- One `execute_scrape_job` attempt as seen from `process_task`, its
orchestrator actions embedded into the queue trace. -/
def runScrape (pg : PageIO) (cb : Nat → Nat → Except PyExc Unit)
    (limit maxPages : Nat) : List QEv × Except PyExc (List Json) :=
  let r := execute_scrape_job (mkScrapeEnv pg cb) limit maxPages true true
  (r.1.map QEv.orch, r.2)

/-- The readiness wait of the hard-navigation retry. -/
def waitReadyStep (polls : List (Except PyExc (Option Json))) :
    List QEv × Except PyExc Unit :=
  match wait_for polls none with
  | .error e => ([.readyWait], .error e)
  | .ok _ => ([.readyWait], .ok ())

/-- The accessor re-resolution of the hard-navigation retry; a missing
accessor raises `CDPError`. -/
def resolveStep (r : Except PyExc Bool) : List QEv × Except PyExc Unit :=
  match r with
  | .error e => ([.resolveCtx], .error e)
  | .ok true => ([.resolveCtx], .ok ())
  | .ok false => ([.resolveCtx], .error (.cdp "Extension accessor not found after retry navigation."))

/-- The hard-navigation retry block of `process_task`: taken exactly when the
first attempt returned no records; navigates, waits for readiness, re-resolves
the accessor and re-runs the page loop. -/
def retryStage (env : TaskEnv) (resumes : List Json) :
    List QEv × Except PyExc (List Json) :=
  if resumes.isEmpty then
    andThen (liftStep env.statusEval1 []) (fun _ =>
    andThen (liftStep env.navigate [.retryNav]) (fun _ =>
    andThen (waitReadyStep env.readyPolls) (fun _ =>
    andThen (resolveStep env.resolveAccessor) (fun _ =>
    runScrape env.page2 env.progressOutcome env.limit env.maxPages))))
  else ([], .ok resumes)

/-- The diagnostic evals `process_task` performs when the final result is
still empty. -/
def emptyLog (env : TaskEnv) (resumes : List Json) : List QEv × Except PyExc Unit :=
  if resumes.isEmpty then
    andThen (liftStep env.statusEval2 []) (fun _ => liftStep env.urlEval2 [])
  else ([], .ok ())

/-- Formats the scraped records for submission; `derive_external_id` runs on
each record and its exceptions propagate, as does the `AttributeError` of
calling `.get` on a non-dict record.  Returns the number of formatted
records. -/
def formatResumes (digest : String → String) : List Json → Except PyExc Nat
  | [] => .ok 0
  | r :: rs =>
      match r with
      | .obj kvs =>
          match derive_external_id digest kvs with
          | .error e => .error e
          | .ok _ =>
              match formatResumes digest rs with
              | .error e => .error e
              | .ok n => .ok (n + 1)
      | _ => .error (.typeErr "resume record is not a dict")

/-- The submission block of `process_task` (skipped when nothing was
scraped). -/
def submitStage (env : TaskEnv) (resumes : List Json) : List QEv × Except PyExc Unit :=
  if resumes.isEmpty then ([], .ok ())
  else
    match formatResumes env.digest resumes with
    | .error e => ([], .error e)
    | .ok n =>
        match env.submitOutcome with
        | .error e => ([.submit n], .error e)
        | .ok _ => ([.submit n], .ok ())

/-- The best-effort auto-analysis block: its failures are logged and
swallowed, so it never raises. -/
def analysisStage (env : TaskEnv) : List QEv × Except PyExc Unit :=
  if env.autoAnalyze && env.keyword != "" then
    match env.searchQuery with
    | .error _ => ([], .ok ())
    | .ok hits =>
        let ids := hits.filterMap (fun item =>
          match item with
          | .obj kvs =>
              match dictGet kvs "_id" with
              | some v => if truthy v then some v else none
              | none => none
          | _ => none)
        if ids.isEmpty then ([], .ok ())
        else ([.analysisDispatch], .ok ())
  else ([], .ok ())

/-- The success-path `complete(status="completed")` call. -/
def completeStage (env : TaskEnv) : List QEv × Except PyExc Unit :=
  match env.completeOk with
  | .error e => ([.complete "completed" none], .error e)
  | .ok _ => ([.complete "completed" none], .ok ())

/-- The body of `process_task`'s `try` statement, in source order: the initial
zero-progress check, the session acquisition, the first scrape attempt, the
hard-navigation retry when it came back empty, the empty-result diagnostics,
submission, auto-analysis, completion, and the final idle heartbeat. -/
def taskBody (env : TaskEnv) : List QEv × Except PyExc Unit :=
  andThen (on_progress env.progressOutcome 0 0) (fun _ =>
  andThen (liftStep env.sessionOpen [.openSession]) (fun _ =>
  andThen (liftStep env.urlEval []) (fun _ =>
  andThen (runScrape env.page1 env.progressOutcome env.limit env.maxPages) (fun resumes1 =>
  andThen (retryStage env resumes1) (fun resumes =>
  andThen (emptyLog env resumes) (fun _ =>
  andThen (submitStage env resumes) (fun _ =>
  andThen (analysisStage env) (fun _ =>
  andThen (completeStage env) (fun _ =>
  ([.hb "idle" none], .ok ()))))))))))

/-- `worker.process_task`: the pre-`try` processing heartbeat and config
parse, the task body, and the exception handlers — `CancellationError` gets an
idle heartbeat and no `complete` call; any other `Exception` gets an error
heartbeat, a `complete(status="failed")` attempt and, if that attempt
succeeds, an idle heartbeat.  Exceptions from the parse, and
non-`Exception` exits, propagate to the worker loop. -/
def process_task (env : TaskEnv) : List QEv × Except PyExc Unit :=
  let pre : List QEv := [.hb "processing" none]
  match env.parse with
  | .error e => (pre, .error e)
  | .ok _ =>
      let body := taskBody env
      match body.2 with
      | .ok _ => (pre ++ body.1, .ok ())
      | .error .cancelled => (pre ++ body.1 ++ [.hb "idle" none], .ok ())
      | .error e =>
          if e.isException then
            let tr2 := pre ++ body.1 ++
              [.hb "error" (some e.msg), .complete "failed" (some e.msg)]
            match env.completeFailOutcome with
            | .error e2 => (tr2, .error e2)
            | .ok _ => (tr2 ++ [.hb "idle" none], .ok ())
          else (pre ++ body.1, .error e)

/-- One iteration of the worker loop's poll/claim cycle, as its outcome: the
claim raised, the claim returned no task, or a task was claimed and processed
with the given environment. -/
inductive IterEnv where
  | claimErr (e : PyExc)
  | noTask
  | task (t : TaskEnv)

/-- `worker.worker_loop` over a finite schedule of iterations: each iteration
heartbeats idle, claims, and either processes or sleeps; `KeyboardInterrupt`
breaks the loop; any other `Exception` reaching the loop produces an error
heartbeat and a backoff sleep, and the loop continues with the next
iteration. -/
def worker_loop : List IterEnv → List QEv
  | [] => []
  | it :: rest =>
      match it with
      | .claimErr e =>
          if e = .keyboard then [.hb "idle" none]
          else if e.isException then
            [.hb "idle" none, .hb "error" (some e.msg), .sleep] ++ worker_loop rest
          else [.hb "idle" none]
      | .noTask => [.hb "idle" none, .sleep] ++ worker_loop rest
      | .task t =>
          let r := process_task t
          match r.2 with
          | .ok _ => [.hb "idle" none, .hb "processing" none] ++ r.1 ++ worker_loop rest
          | .error e =>
              if e = .keyboard then [.hb "idle" none, .hb "processing" none] ++ r.1
              else if e.isException then
                [.hb "idle" none, .hb "processing" none] ++ r.1 ++
                  [.hb "error" (some e.msg), .sleep] ++ worker_loop rest
              else [.hb "idle" none, .hb "processing" none] ++ r.1

/-- Is the outcome a raised `CDPError`? -/
def isCdpError {α : Type} : Except PyExc α → Bool
  | .error (.cdp _) => true
  | _ => false

/-- A poll outcome that neither succeeds truthily nor raises anything but
`CDPError`: what `wait_for` sees on the way to its deadline. -/
def pollQuiet (q : Except PyExc (Option Json)) : Prop :=
  match q with
  | .ok v => truthyOpt v = false
  | .error (.cdp _) => True
  | .error _ => False

/-- The last observation `wait_for` holds after a poll sequence: a successful
evaluation records its value, an evaluation error resets it to `None`. -/
def lastObs (last : Option Json) (polls : List (Except PyExc (Option Json))) : Option Json :=
  polls.foldl (fun _ q => match q with | .ok v => v | .error _ => none) last

/-- Does a frame match the awaited request id? -/
def matchingB (rid : Nat) : Frame → Bool
  | .response i _ _ => i == rid
  | .event _ _ => false

/-- Is a frame either an event or a response for a different request? -/
def nonMatchingB (rid : Nat) : Frame → Bool
  | .response i _ _ => i != rid
  | .event _ _ => true

/-- The event frames of a stream, in order. -/
def eventsOf : List (Nat × Frame) → List (String × Option Json)
  | [] => []
  | (_, .event m p) :: rest => (m, p) :: eventsOf rest
  | (_, .response _ _ _) :: rest => eventsOf rest

/-- The response frames of a stream, in order. -/
def droppedOf : List (Nat × Frame) → List (Nat × Option Json)
  | [] => []
  | (_, .response i r _) :: rest => (i, r) :: droppedOf rest
  | (_, .event _ _) :: rest => droppedOf rest

/-- Dispatching a list of events through `_handle_event`, in order. -/
def foldEvents (ctxs : Registry) (evs : List (String × Option Json)) : Registry :=
  evs.foldl (fun c mp => _handle_event c mp.1 mp.2) ctxs

/-- Number of `complete` calls in a queue trace. -/
def countComplete (tr : List QEv) : Nat :=
  tr.countP (fun e => match e with | .complete _ _ => true | _ => false)

/-- Number of hard-navigation retries in a queue trace. -/
def countRetry (tr : List QEv) : Nat :=
  tr.countP (fun e => match e with | .retryNav => true | _ => false)

/-- No interaction of the page environment raises `CancellationError` (in the
source, only the progress callback can: the cancellation signal arrives in the
`updateProgress` response). -/
def PageIO.noCancel (pg : PageIO) : Prop :=
  pg.initWait ≠ .error .cancelled ∧ pg.polyfill ≠ .error .cancelled ∧
  (∀ p, pg.pageWait p ≠ .error .cancelled) ∧
  (∀ p, pg.extractEval p ≠ .error .cancelled) ∧
  (∀ p, pg.goNextEval p ≠ .error .cancelled) ∧
  (∀ p q, q ∈ pg.advancePolls p → q ≠ .error .cancelled)

/-- No interaction of the scrape environment other than the progress callback
raises `CancellationError`. -/
def ScrapeEnv.noCancel (env : ScrapeEnv) : Prop :=
  env.initWait ≠ .error .cancelled ∧ env.polyfill ≠ .error .cancelled ∧
  (∀ p, env.pageWait p ≠ .error .cancelled) ∧
  (∀ p, env.extractEval p ≠ .error .cancelled) ∧
  (∀ p, env.goNextEval p ≠ .error .cancelled) ∧
  (∀ p q, q ∈ env.advancePolls p → q ≠ .error .cancelled)

/-- No interaction of the task environment other than the progress callback
raises `CancellationError`. -/
def TaskEnv.noCancel (env : TaskEnv) : Prop :=
  env.sessionOpen ≠ .error .cancelled ∧ env.urlEval ≠ .error .cancelled ∧
  env.page1.noCancel ∧ env.statusEval1 ≠ .error .cancelled ∧
  env.navigate ≠ .error .cancelled ∧
  (∀ q, q ∈ env.readyPolls → q ≠ .error .cancelled) ∧
  env.resolveAccessor ≠ .error .cancelled ∧ env.page2.noCancel ∧
  env.statusEval2 ≠ .error .cancelled ∧ env.urlEval2 ≠ .error .cancelled ∧
  env.submitOutcome ≠ .error .cancelled ∧ env.completeOk ≠ .error .cancelled

/-- A page environment whose hooks always succeed, with the given extraction
behaviour: pagination reports a next page and the page-advance wait observes
the incremented page number at its first poll. -/
def constPage (extract : Nat → Except PyExc (Option Json)) : PageIO :=
  ⟨.ok (), .ok (), fun _ => .ok (), extract,
   fun _ => .ok (some (.bool true)), fun _ => [.ok (some (.bool true))]⟩

/-- Page yields of the C7 scenario: 20, 20 and 5 records on pages 1-3. -/
def pageCountC7 (p : Nat) : Nat := if p = 1 then 20 else if p = 2 then 20 else 5

/-- Scrape environment of the C7 scenario: every hook succeeds, pagination
always reports success, progress callbacks succeed. -/
def envC7 : ScrapeEnv :=
  ⟨.ok (), .ok (), fun _ => .ok (),
   fun p => .ok (some (.arr (List.replicate (pageCountC7 p) (.str "r")))),
   fun _ => .ok (some (.bool true)),
   fun _ => [.ok (some (.bool true))],
   fun _ _ => .ok ()⟩

/-- Scrape environment of the C1 failing input: every page of the stuck list
yields the same 20 records, the pagination hook reports success, but the
page-number-advance wait only ever observes a falsy pagination state — its
poll budget runs out, i.e. the wait times out. -/
def envC1 : ScrapeEnv :=
  ⟨.ok (), .ok (), fun _ => .ok (),
   fun _ => .ok (some (.arr (List.replicate 20 (.str "r")))),
   fun _ => .ok (some (.bool true)),
   fun _ => [.ok (some (.bool false)), .ok (some (.bool false))],
   fun _ _ => .ok ()⟩

/-- Task environment whose first scrape attempt yields zero records on page 1
but five records on page 2 (limit 200, maxPages 2), with every queue and
session interaction succeeding: the job result is non-empty, so the
hard-navigation retry is not taken although the first page yielded zero. -/
def envC2cex : TaskEnv :=
  ⟨.ok (), 200, 2, false, "", fun _ _ => .ok (), .ok (), .ok (),
   constPage (fun p => .ok (some (.arr (if p = 1 then [] else List.replicate 5 (.obj [("name", .str "r")]))))),
   .ok (), .ok (), [.ok (some (.bool true))], .ok true,
   constPage (fun _ => .ok (some (.arr []))),
   .ok (), .ok (), fun s => s, .ok (), .ok [], .ok (), .ok (), .ok ()⟩

/-- Task environment whose two scrape attempts both yield zero records
(limit 200, maxPages 1), with every queue and session interaction
succeeding: the hard-navigation retry is taken exactly once. -/
def envC2w : TaskEnv :=
  ⟨.ok (), 200, 1, false, "", fun _ _ => .ok (), .ok (), .ok (),
   constPage (fun _ => .ok (some (.arr []))),
   .ok (), .ok (), [.ok (some (.bool true))], .ok true,
   constPage (fun _ => .ok (some (.arr []))),
   .ok (), .ok (), fun s => s, .ok (), .ok [], .ok (), .ok (), .ok ()⟩

/-- Task environment whose progress callback reports cancellation on page 2
(each page yields 20 records, limit 200, maxPages 10). -/
def envC3w : TaskEnv :=
  ⟨.ok (), 200, 10, false, "", (fun _ p => if p = 2 then .error .cancelled else .ok ()),
   .ok (), .ok (),
   constPage (fun _ => .ok (some (.arr (List.replicate 20 (.obj [("name", .str "r")]))))),
   .ok (), .ok (), [.ok (some (.bool true))], .ok true,
   constPage (fun _ => .ok (some (.arr []))),
   .ok (), .ok (), fun s => s, .ok (), .ok [], .ok (), .ok (), .ok ()⟩

/-- Task environment whose config parsing raises before the `try` block, as
`int(config["limit"])` does on a malformed limit. -/
def envC9bad : TaskEnv :=
  ⟨.error (.valueError "invalid literal for int() with base 10: abc"),
   0, 0, false, "", fun _ _ => .ok (), .ok (), .ok (),
   constPage (fun _ => .ok (some (.arr []))),
   .ok (), .ok (), [], .ok true,
   constPage (fun _ => .ok (some (.arr []))),
   .ok (), .ok (), fun s => s, .ok (), .ok [], .ok (), .ok (), .ok ()⟩

/-- The key aliases `derive_external_id` consults before the digest
fallback. -/
def aliasKeys : List String :=
  ["profileUrl", "profile_url", "profileURL", "url", "resumeId", "resume_id",
   "perUserId", "per_user_id", "externalId", "external_id"]

/-- The query pairs of `_normalize_profile_url` before sorting: `parse_qsl`
output with `utm_*` keys removed. -/
def nonUtmPairs (q : String) : List (String × String) :=
  (parse_qsl q).filter (fun kv => !(pyStartsWith (pyLower kv.1) "utm_"))

/-!
Helper lemmas shared by the claim theorems.
-/

theorem charListLt_iff : ∀ l₁ l₂ : List Char, charListLt l₁ l₂ = true ↔ l₁ < l₂
  | [], [] => by
      constructor
      · intro h; simp [charListLt] at h
      · intro h; cases h
  | [], b :: bs => by
      constructor
      · intro _; exact List.Lex.nil
      · intro _; rfl
  | a :: as, [] => by
      constructor
      · intro h; simp [charListLt] at h
      · intro h; cases h
  | a :: as, b :: bs => by
      by_cases hab : a = b
      · subst hab
        constructor
        · intro h
          exact List.Lex.cons ((charListLt_iff as bs).mp (by simpa [charListLt] using h))
        · intro h
          simp only [charListLt, if_pos rfl]
          cases h with
          | cons h => exact (charListLt_iff as bs).mpr h
          | rel h => exact absurd h (lt_irrefl a)
      · constructor
        · intro h
          exact List.Lex.rel (by simpa [charListLt, hab] using h)
        · intro h
          simp only [charListLt, if_neg hab, decide_eq_true_eq]
          cases h with
          | cons h2 => exact absurd rfl hab
          | rel h2 => exact h2

theorem pyStrLt_iff (a b : String) : pyStrLt a b = true ↔ a < b := by
  rw [String.lt_iff_toList_lt]
  exact charListLt_iff a.data b.data

theorem pyStrLe_iff (a b : String) : pyStrLe a b = true ↔ a ≤ b := by
  unfold pyStrLe
  rw [Bool.not_eq_true']
  constructor
  · intro h
    by_contra hle
    rw [(pyStrLt_iff b a).mpr (not_le.mp hle)] at h
    cases h
  · intro h
    cases hbool : pyStrLt b a with
    | false => rfl
    | true => exact absurd ((pyStrLt_iff b a).mp hbool) (not_lt.mpr h)

instance : IsTrans (String × String) pyPairLe where
  trans a b c hab hbc := by
    simp only [pyPairLe, pyStrLt_iff, pyStrLe_iff] at hab hbc ⊢
    rcases hab with h1 | ⟨h1, h2⟩ <;> rcases hbc with h3 | ⟨h3, h4⟩
    · exact Or.inl (lt_trans h1 h3)
    · exact Or.inl (h3 ▸ h1)
    · exact Or.inl (h1 ▸ h3)
    · exact Or.inr ⟨h1.trans h3, le_trans h2 h4⟩

instance : IsTotal (String × String) pyPairLe where
  total a b := by
    simp only [pyPairLe, pyStrLt_iff, pyStrLe_iff]
    rcases lt_trichotomy a.1 b.1 with h | h | h
    · exact Or.inl (Or.inl h)
    · rcases le_total a.2 b.2 with h2 | h2
      · exact Or.inl (Or.inr ⟨h, h2⟩)
      · exact Or.inr (Or.inr ⟨h.symm, h2⟩)
    · exact Or.inr (Or.inl h)

instance : IsAntisymm (String × String) pyPairLe where
  antisymm a b hab hba := by
    simp only [pyPairLe, pyStrLt_iff, pyStrLe_iff] at hab hba
    rcases hab with h1 | ⟨h1, h2⟩ <;> rcases hba with h3 | ⟨h3, h4⟩
    · exact absurd h3 (lt_asymm h1)
    · exact absurd h1 (h3 ▸ lt_irrefl b.1)
    · exact absurd h3 (h1 ▸ lt_irrefl a.1)
    · exact Prod.ext h1 (le_antisymm h2 h4)

theorem pysorted_eq_of_perm {l₁ l₂ : List (String × String)} (h : l₁.Perm l₂) :
    List.insertionSort pyPairLe l₁ = List.insertionSort pyPairLe l₂ :=
  List.eq_of_perm_of_sorted
    ((List.perm_insertionSort _ _).trans (h.trans (List.perm_insertionSort _ _).symm))
    (List.sorted_insertionSort _ _) (List.sorted_insertionSort _ _)

theorem wait_for_no_cdp (polls : List (Except PyExc (Option Json))) :
    ∀ last m, wait_for polls last ≠ .error (.cdp m) := by
  induction polls with
  | nil => intro last m h; simp [wait_for] at h
  | cons q rest ih =>
      intro last m h
      cases q with
      | error e =>
          cases e <;> simp [wait_for] at h
          exact ih none m h
      | ok v =>
          by_cases hv : truthyOpt v = true
          · simp [wait_for, hv] at h
          · simp [wait_for, hv] at h
            exact ih v m h

theorem wait_for_quiet (polls : List (Except PyExc (Option Json))) :
    ∀ last, (∀ q ∈ polls, pollQuiet q) → wait_for polls last = .ok (lastObs last polls) := by
  induction polls with
  | nil => intro last _; rfl
  | cons q rest ih =>
      intro last hq
      have hq0 : pollQuiet q := hq q (List.mem_cons_self q rest)
      have hqr : ∀ p ∈ rest, pollQuiet p := fun p hp => hq p (List.mem_cons_of_mem q hp)
      cases q with
      | error e =>
          cases e <;> simp [pollQuiet] at hq0
          simpa [wait_for, lastObs] using ih none hqr
      | ok v =>
          simp only [pollQuiet] at hq0
          simpa [wait_for, hq0, lastObs] using ih v hqr

theorem wait_for_error_source (polls : List (Except PyExc (Option Json))) :
    ∀ last e, wait_for polls last = .error e →
      (Except.error e : Except PyExc (Option Json)) ∈ polls := by
  induction polls with
  | nil => intro last e h; simp [wait_for] at h
  | cons q rest ih =>
      intro last e h
      cases q with
      | error e2 =>
          cases e2 <;> simp [wait_for] at h
          case cdp m => exact List.mem_cons_of_mem _ (ih none e h)
          all_goals (rw [← h]; exact List.mem_cons_self _ _)
      | ok v =>
          by_cases hv : truthyOpt v = true
          · simp [wait_for, hv] at h
          · simp [wait_for, hv] at h
            exact List.mem_cons_of_mem _ (ih v e h)

theorem splitAtFirst_parts (c : Char) :
    ∀ l ab, splitAtFirst c l = some ab → l = ab.1 ++ c :: ab.2 := by
  intro l
  induction l with
  | nil => intro ab h; simp [splitAtFirst] at h
  | cons x xs ih =>
      intro ab h
      rw [splitAtFirst] at h
      split at h
      · next hx => cases h; simpa using hx
      · next hx =>
          cases hrec : splitAtFirst c xs with
          | none => rw [hrec] at h; cases h
          | some ab2 =>
              rw [hrec] at h
              cases h
              simpa using ih ab2 hrec

theorem urlsplitScheme_snd_subset (u : List Char) :
    ∀ x, x ∈ (urlsplitScheme u).2 → x ∈ u := by
  intro x hx
  unfold urlsplitScheme at hx
  split at hx
  · next ab heq =>
      split at hx
      · next c cs hcs =>
          split at hx
          · have hparts := splitAtFirst_parts ':' u ab heq
            rw [hparts]
            simp only at hx
            exact List.mem_append_right _ (List.mem_cons_of_mem _ hx)
          · simpa using hx
      · simpa using hx
  · simpa using hx

theorem urlsplitNetloc_fst_subset (r : List Char) :
    ∀ x, x ∈ (urlsplitNetloc r).1 → x ∈ r := by
  intro x hx
  unfold urlsplitNetloc at hx
  split at hx
  · next r2 =>
      have := (List.takeWhile_sublist _).subset hx
      exact List.mem_cons_of_mem _ (List.mem_cons_of_mem _ this)
  · simp at hx

theorem urlsplit_ok_of_no_brackets (s : String)
    (h1 : ('[' : Char) ∉ s.data) (h2 : (']' : Char) ∉ s.data) :
    ∃ r, urlsplit s = .ok r := by
  simp only [urlsplit]
  split
  · next hcond =>
      exfalso
      have hsub : ∀ x : Char,
          x ∈ (urlsplitNetloc (urlsplitScheme (s.data.filter (fun c => !unsafeUrlChar c))).2).1 →
          x ∈ s.data := by
        intro x hx
        have hx2 := urlsplitNetloc_fst_subset _ x hx
        have hx3 := urlsplitScheme_snd_subset _ x hx2
        exact (List.mem_filter.mp hx3).1
      rcases hcond with ⟨hc, _⟩ | ⟨hc, _⟩
      · exact h1 (hsub _ (by simpa using hc))
      · exact h2 (hsub _ (by simpa using hc))
  · exact ⟨_, rfl⟩

theorem urlsplitEffective_ok_of_no_brackets (t : String)
    (h1 : ('[' : Char) ∉ t.data) (h2 : (']' : Char) ∉ t.data) :
    ∃ r, urlsplitEffective t = .ok r := by
  obtain ⟨r, hr⟩ := urlsplit_ok_of_no_brackets t h1 h2
  have h1p : ('[' : Char) ∉ ("https://" ++ t).data := by
    rw [String.data_append]
    intro hmem
    rcases List.mem_append.mp hmem with hl | hr2
    · simp at hl
    · exact h1 hr2
  have h2p : (']' : Char) ∉ ("https://" ++ t).data := by
    rw [String.data_append]
    intro hmem
    rcases List.mem_append.mp hmem with hl | hr2
    · simp at hl
    · exact h2 hr2
  by_cases hcond : r.netloc = "" ∧ r.scheme = ""
  · obtain ⟨r2, hr2⟩ := urlsplit_ok_of_no_brackets ("https://" ++ t) h1p h2p
    exact ⟨r2, by simp [urlsplitEffective, hr, hcond, hr2]⟩
  · exact ⟨r, by simp [urlsplitEffective, hr, hcond]⟩

theorem _normalize_profile_url_ok_of_no_brackets (u : String)
    (h1 : ('[' : Char) ∉ (pyStrip u).data) (h2 : (']' : Char) ∉ (pyStrip u).data) :
    ∃ o, _normalize_profile_url u = .ok o := by
  obtain ⟨r, hr⟩ := urlsplitEffective_ok_of_no_brackets (pyStrip u) h1 h2
  simp only [_normalize_profile_url, hr]
  split
  · exact ⟨_, rfl⟩
  · split
    · exact ⟨_, rfl⟩
    · split
      · exact ⟨_, rfl⟩
      · exact ⟨_, rfl⟩


theorem normalize_netloc_branch (u : String) (p : SplitResult)
    (h1 : ¬ pyStrip u = "") (h2 : pyLower (pyStrip u) ∉ noopHrefs)
    (h3 : urlsplitEffective (pyStrip u) = .ok p) (h4 : p.netloc ≠ "") :
    _normalize_profile_url u = .ok (some (normalizedNetlocForm p)) := by
  simp only [_normalize_profile_url, h3, if_neg h1, if_neg h2, if_pos h4]

/-- C5 (amended): `derive_external_id` is deterministic and returns a string
for every record whose profile-URL alias value (after trimming) contains no
square bracket; in particular, for any record lacking all of the profile-URL,
resume-id, per-user-id and external-id field aliases, the key equals the MD5
hex digest of the record's canonical JSON form (keys sorted).  Totality fails
in general: see the counterexample, where a bracketed profile URL makes
`urllib.parse.urlsplit` raise `ValueError`. -/
theorem C5_derive_key_totality :
    (∀ (digest : String → String) (r : Record),
        (∀ k ∈ aliasKeys, dictGet r k = none) →
        derive_external_id digest r = .ok (digest (json_dumps (Json.obj r)))) ∧
    (∀ (digest : String → String) (r : Record),
        (∀ u, profile_url_alias r = some u →
          ('[' : Char) ∉ (pyStrip u).data ∧ (']' : Char) ∉ (pyStrip u).data) →
        ∃ s, derive_external_id digest r = .ok s) ∧
    (∀ (digest : String → String) (r : Record),
        derive_external_id digest r = derive_external_id digest r) := by
  refine ⟨?_, ?_, fun _ _ => rfl⟩
  · intro digest r h
    have h1 : dictGet r "profileUrl" = none := h _ (by simp [aliasKeys])
    have h2 : dictGet r "profile_url" = none := h _ (by simp [aliasKeys])
    have h3 : dictGet r "profileURL" = none := h _ (by simp [aliasKeys])
    have h4 : dictGet r "url" = none := h _ (by simp [aliasKeys])
    have h5 : dictGet r "resumeId" = none := h _ (by simp [aliasKeys])
    have h6 : dictGet r "resume_id" = none := h _ (by simp [aliasKeys])
    have h7 : dictGet r "perUserId" = none := h _ (by simp [aliasKeys])
    have h8 : dictGet r "per_user_id" = none := h _ (by simp [aliasKeys])
    have h9 : dictGet r "externalId" = none := h _ (by simp [aliasKeys])
    have h10 : dictGet r "external_id" = none := h _ (by simp [aliasKeys])
    simp [derive_external_id, derive_fallback_key, profile_url_alias, resume_id_alias,
      per_user_id_alias, external_id_alias, tokenStep, pyOrStr, _read_str,
      h1, h2, h3, h4, h5, h6, h7, h8, h9, h10]
  · intro digest r h
    rcases huE : profile_url_alias r with _ | u
    · exact ⟨derive_fallback_key digest r, by simp [derive_external_id, huE]⟩
    · by_cases hu0 : u = ""
      · exact ⟨derive_fallback_key digest r, by simp [derive_external_id, huE, hu0]⟩
      · obtain ⟨o, ho⟩ := _normalize_profile_url_ok_of_no_brackets u (h u huE).1 (h u huE).2
        cases o with
        | none => exact ⟨derive_fallback_key digest r, by simp [derive_external_id, huE, hu0, ho]⟩
        | some n =>
            by_cases hn : n = ""
            · exact ⟨derive_fallback_key digest r, by simp [derive_external_id, huE, hu0, ho, hn]⟩
            · exact ⟨n, by simp [derive_external_id, huE, hu0, ho, hn]⟩

/-- Witness for C5: the digest case and the bracket-free-URL case at concrete
records. -/
theorem C5_derive_key_totality_witness :
    derive_external_id (fun s => "d:" ++ s) [("name", Json.str "x")] =
      .ok ("d:" ++ json_dumps (Json.obj [("name", Json.str "x")])) ∧
    ∃ s, derive_external_id (fun s => s)
        [("profileUrl", Json.str "https://example.com/p")] = .ok s := by
  constructor
  · exact C5_derive_key_totality.1 _ _ (by intro k hk; fin_cases hk <;> rfl)
  · refine C5_derive_key_totality.2.1 _ _ ?_
    intro u hu
    have hu2 : (some "https://example.com/p" : Option String) = some u := by
      rw [← hu]; rfl
    cases hu2
    exact ⟨by decide, by decide⟩

/-- C6: for every record bearing a normalizable profile URL,
`derive_external_id` is invariant under reordering of the URL's query
parameters and under adding or removing `utm_*` query parameters; the
normalization lower-cases the host, strips a trailing slash from the path (an
empty path becomes "/"), sorts the remaining query parameters by key, discards
the scheme, and treats the literal hrefs "#", "javascript:;" and
"javascript:void(0)" as absent. -/
theorem C6_profile_url_invariance :
    (∀ (u₁ u₂ : String) (p₁ p₂ : SplitResult),
        ¬ pyStrip u₁ = "" → ¬ pyStrip u₂ = "" →
        pyLower (pyStrip u₁) ∉ noopHrefs → pyLower (pyStrip u₂) ∉ noopHrefs →
        urlsplitEffective (pyStrip u₁) = .ok p₁ → urlsplitEffective (pyStrip u₂) = .ok p₂ →
        p₁.netloc = p₂.netloc → p₁.netloc ≠ "" → p₁.path = p₂.path →
        (nonUtmPairs p₁.query).Perm (nonUtmPairs p₂.query) →
        _normalize_profile_url u₁ = _normalize_profile_url u₂) ∧
    (_normalize_profile_url "#" = .ok none ∧
     _normalize_profile_url "javascript:;" = .ok none ∧
     _normalize_profile_url "javascript:void(0)" = .ok none) ∧
    (_normalize_profile_url "HTTPS://WWW.Example.COM/People/" = .ok (some "www.example.com/people") ∧
     _normalize_profile_url "https://example.com?b=2&a=1" = .ok (some "example.com/?a=1&b=2")) ∧
    (∀ (digest : String → String) (r : Record) (u n : String),
        profile_url_alias r = some u → u ≠ "" →
        _normalize_profile_url u = .ok (some n) → n ≠ "" →
        derive_external_id digest r = .ok n) := by
  refine ⟨?_, ⟨rfl, rfl, rfl⟩, ⟨rfl, rfl⟩, ?_⟩
  · intro u₁ u₂ p₁ p₂ h1 h1x h2 h2x h3 h3x hnet hnet0 hpath hperm
    rw [normalize_netloc_branch u₁ p₁ h1 h2 h3 hnet0,
        normalize_netloc_branch u₂ p₂ h1x h2x h3x (hnet ▸ hnet0)]
    have hq : query_pairs_sorted p₁.query = query_pairs_sorted p₂.query :=
      pysorted_eq_of_perm hperm
    simp [normalizedNetlocForm, hnet, hpath, hq]
  · intro digest r u n hal hu hn hn0
    simp [derive_external_id, hal, hu, hn, hn0]

/-- Witness for C6: query reordering and a `utm_source` parameter do not
change the derived key of a concrete profile-URL record. -/
theorem C6_profile_url_invariance_witness :
    _normalize_profile_url "https://Example.com/p?b=2&a=1&utm_source=x" =
      _normalize_profile_url "https://Example.com/p?a=1&b=2" ∧
    derive_external_id (fun s => s)
        [("profileUrl", Json.str "https://Example.com/p?b=2&a=1&utm_source=x")] =
      .ok "example.com/p?a=1&b=2" := by
  constructor
  · exact C6_profile_url_invariance.1 _ _
      ⟨"https", "Example.com", "/p", "b=2&a=1&utm_source=x", ""⟩
      ⟨"https", "Example.com", "/p", "a=1&b=2", ""⟩
      (by decide) (by decide) (by decide) (by decide) rfl rfl rfl (by decide) rfl (by decide)
  · exact C6_profile_url_invariance.2.2.2 _ _ _ _ rfl (by decide) rfl (by decide)

/-- C5 counterexample: `derive_external_id` is not total — on a record whose
profile URL has a mismatched square bracket in its authority,
`urllib.parse.urlsplit` raises `ValueError("Invalid IPv6 URL")` and the
exception propagates out of `derive_external_id`. -/
theorem C5_counterexample :
    derive_external_id (fun s => s) [("profileUrl", Json.str "http://[")] =
      .error (.valueError "Invalid IPv6 URL") := rfl

theorem scrapeLoop_cancelled_ends_progress
    (env : ScrapeEnv) (limit maxPages : Nat) (ae cb : Bool)
    (hpw : ∀ p, env.pageWait p ≠ .error .cancelled)
    (hex : ∀ p, env.extractEval p ≠ .error .cancelled)
    (hgn : ∀ p, env.goNextEval p ≠ .error .cancelled)
    (hap : ∀ p q, q ∈ env.advancePolls p → q ≠ .error .cancelled) :
    ∀ fuel p acc, (scrapeLoop env limit maxPages ae cb fuel p acc).2 = .error .cancelled →
      ∃ tr c pg, (scrapeLoop env limit maxPages ae cb fuel p acc).1 = tr ++ [Ev.progress c pg] := by
  intro fuel
  induction fuel with
  | zero => intro p acc h; simp [scrapeLoop] at h
  | succ fuel ih =>
      intro p acc h
      rw [scrapeLoop] at h ⊢
      cases hp : env.pageWait p with
      | error e =>
          simp only [hp] at h
          have he : e = PyExc.cancelled := by simpa using h
          exact absurd (he ▸ hp) (hpw p)
      | ok u =>
      simp only [hp] at h ⊢
      cases hx : env.extractEval p with
      | error e =>
          simp only [hx] at h
          have he : e = PyExc.cancelled := by simpa using h
          exact absurd (he ▸ hx) (hex p)
      | ok v =>
      simp only [hx] at h ⊢
      rcases hlist : (match v with
        | some (.arr rs) => (Except.ok rs : Except PyExc (List Json))
        | _ =>
            if !ae && acc.isEmpty then
              .error (.cdp "Failed to extract resume data from the page.")
            else .ok []) with e2 | rs
      · simp only [hlist] at h
        have : e2 = PyExc.cancelled := by simpa using h
        subst this
        rcases v with _ | j
        · simp only at hlist
          split at hlist <;> simp at hlist
        · cases j <;> simp only at hlist <;> (try (split at hlist <;> simp at hlist))
          simp at hlist
      · simp only [hlist] at h ⊢
        by_cases hraise : (rs.isEmpty && !ae && acc.isEmpty) = true
        · simp only [if_pos hraise] at h
          simp at h
        · simp only [if_neg hraise] at h ⊢
          cases hcb : cb with
          | false =>
              subst hcb
              simp only [Bool.false_eq_true, if_false] at h ⊢
              by_cases hlim : limit ≤ (acc ++ rs).length
              · simp only [if_pos hlim] at h; simp at h
              · simp only [if_neg hlim] at h ⊢
                by_cases hmax : maxPages ≤ p
                · simp only [if_pos hmax] at h; simp at h
                · simp only [if_neg hmax] at h ⊢
                  cases hgnv : env.goNextEval p with
                  | error e =>
                      simp only [hgnv] at h
                      have he : e = PyExc.cancelled := by simpa using h
                      exact absurd (he ▸ hgnv) (hgn p)
                  | ok nv =>
                  simp only [hgnv] at h ⊢
                  cases hnv : truthyOpt nv with
                  | false =>
                      simp only [hnv, Bool.not_false, if_true] at h
                      simp at h
                  | true =>
                      simp only [hnv, Bool.not_true, Bool.false_eq_true, if_false] at h ⊢
                      cases hw : wait_for (env.advancePolls p) none with
                      | error e =>
                          cases e with
                          | cdp m => simp only [hw] at h; simp at h
                          | cancelled =>
                              exact absurd (wait_for_error_source _ none _ hw)
                                (fun hmem => hap p _ hmem rfl)
                          | valueError m => simp only [hw] at h; simp at h
                          | connClosed => simp only [hw] at h; simp at h
                          | queue m => simp only [hw] at h; simp at h
                          | typeErr m => simp only [hw] at h; simp at h
                          | keyboard => simp only [hw] at h; simp at h
                      | ok w =>
                          simp only [hw] at h ⊢
                          obtain ⟨tr, c, pg, htr⟩ := ih (p + 1) (acc ++ rs) (by simpa using h)
                          refine ⟨[.goNext] ++ tr, c, pg, ?_⟩
                          simp [htr]
          | true =>
              subst hcb
              simp only [if_true] at h ⊢
              cases hcbres : env.progressRes (acc ++ rs).length p with
              | error e =>
                  simp only [hcbres] at h ⊢
                  exact ⟨[], (acc ++ rs).length, p, rfl⟩
              | ok w =>
              simp only [hcbres] at h ⊢
              by_cases hlim : limit ≤ (acc ++ rs).length
              · simp only [if_pos hlim] at h; simp at h
              · simp only [if_neg hlim] at h ⊢
                by_cases hmax : maxPages ≤ p
                · simp only [if_pos hmax] at h; simp at h
                · simp only [if_neg hmax] at h ⊢
                  cases hgnv : env.goNextEval p with
                  | error e =>
                      simp only [hgnv] at h
                      have he : e = PyExc.cancelled := by simpa using h
                      exact absurd (he ▸ hgnv) (hgn p)
                  | ok nv =>
                  simp only [hgnv] at h ⊢
                  cases hnv : truthyOpt nv with
                  | false =>
                      simp only [hnv, Bool.not_false, if_true] at h
                      simp at h
                  | true =>
                      simp only [hnv, Bool.not_true, Bool.false_eq_true, if_false] at h ⊢
                      cases hw : wait_for (env.advancePolls p) none with
                      | error e =>
                          cases e with
                          | cdp m => simp only [hw] at h; simp at h
                          | cancelled =>
                              exact absurd (wait_for_error_source _ none _ hw)
                                (fun hmem => hap p _ hmem rfl)
                          | valueError m => simp only [hw] at h; simp at h
                          | connClosed => simp only [hw] at h; simp at h
                          | queue m => simp only [hw] at h; simp at h
                          | typeErr m => simp only [hw] at h; simp at h
                          | keyboard => simp only [hw] at h; simp at h
                      | ok w2 =>
                          simp only [hw] at h ⊢
                          obtain ⟨tr, c, pg, htr⟩ := ih (p + 1) (acc ++ rs) (by simpa using h)
                          refine ⟨[.progress (acc ++ rs).length p, .goNext] ++ tr, c, pg, ?_⟩
                          simp [htr]

theorem execute_cancelled_ends_progress
    (env : ScrapeEnv) (limit maxPages : Nat) (ae cb : Bool) (hnc : env.noCancel)
    (h : (execute_scrape_job env limit maxPages ae cb).2 = .error .cancelled) :
    ∃ tr c pg, (execute_scrape_job env limit maxPages ae cb).1 = tr ++ [Ev.progress c pg] := by
  obtain ⟨hiw, hpf, hpw, hex, hgn, hap⟩ := hnc
  rw [execute_scrape_job] at h ⊢
  cases hi : env.initWait with
  | error e =>
      simp only [hi] at h
      have he : e = PyExc.cancelled := by simpa using h
      exact absurd (he ▸ hi) hiw
  | ok u =>
  simp only [hi] at h ⊢
  cases hp : env.polyfill with
  | error e =>
      simp only [hp] at h
      have he : e = PyExc.cancelled := by simpa using h
      exact absurd (he ▸ hp) hpf
  | ok u2 =>
  simp only [hp] at h ⊢
  exact scrapeLoop_cancelled_ends_progress env limit maxPages ae cb hpw hex hgn hap _ 1 [] h

theorem countComplete_nil : countComplete [] = 0 := rfl

theorem countComplete_append (a b : List QEv) :
    countComplete (a ++ b) = countComplete a + countComplete b := by
  simp [countComplete, List.countP_append]

theorem countComplete_andThen {α β : Type} (x : List QEv × Except PyExc α)
    (f : α → List QEv × Except PyExc β) :
    countComplete (andThen x f).1 =
      countComplete x.1 +
        (match x.2 with
         | .ok a => countComplete (f a).1
         | .error _ => 0) := by
  cases hx : x.2 with
  | error e => simp [andThen, hx]
  | ok a => simp [andThen, hx, countComplete_append]

theorem result_andThen {α β : Type} (x : List QEv × Except PyExc α)
    (f : α → List QEv × Except PyExc β) :
    (andThen x f).2 =
      (match x.2 with
       | .ok a => (f a).2
       | .error e => .error e) := by
  cases hx : x.2 with
  | error e => simp [andThen, hx]
  | ok a => simp [andThen, hx]

theorem countComplete_on_progress (o : Nat → Nat → Except PyExc Unit) (c p : Nat) :
    countComplete (on_progress o c p).1 = 0 := by
  cases ho : o c p with
  | ok u => simp [on_progress, ho, countComplete]
  | error e => cases e <;> simp [on_progress, ho, countComplete]

theorem countComplete_liftStep (x : Except PyExc Unit) (evs : List QEv) :
    countComplete (liftStep x evs).1 = countComplete evs := by
  cases x <;> rfl

theorem countComplete_orch (l : List Ev) : countComplete (l.map QEv.orch) = 0 := by
  apply List.countP_eq_zero.mpr
  intro a ha
  obtain ⟨e, _, he⟩ := List.mem_map.mp ha
  subst he
  simp

theorem countComplete_runScrape (pg : PageIO) (cb : Nat → Nat → Except PyExc Unit)
    (limit maxPages : Nat) :
    countComplete (runScrape pg cb limit maxPages).1 = 0 := by
  simp [runScrape, countComplete_orch]

theorem countComplete_andThen_zero {α β : Type} (x : List QEv × Except PyExc α)
    (f : α → List QEv × Except PyExc β) (hx : countComplete x.1 = 0)
    (hf : ∀ a, countComplete (f a).1 = 0) :
    countComplete (andThen x f).1 = 0 := by
  rw [countComplete_andThen, hx]
  cases hx2 : x.2 <;> simp [hf]

theorem countComplete_waitReadyStep (polls : List (Except PyExc (Option Json))) :
    countComplete (waitReadyStep polls).1 = 0 := by
  unfold waitReadyStep
  cases wait_for polls none <;> rfl

theorem countComplete_resolveStep (r : Except PyExc Bool) :
    countComplete (resolveStep r).1 = 0 := by
  unfold resolveStep
  rcases r with e | b
  · rfl
  · cases b <;> rfl

theorem countComplete_retryStage (env : TaskEnv) (rs : List Json) :
    countComplete (retryStage env rs).1 = 0 := by
  unfold retryStage
  split
  · apply countComplete_andThen_zero
    · rw [countComplete_liftStep]; rfl
    · intro a
      apply countComplete_andThen_zero
      · rw [countComplete_liftStep]; rfl
      · intro b
        apply countComplete_andThen_zero
        · exact countComplete_waitReadyStep _
        · intro c
          apply countComplete_andThen_zero
          · exact countComplete_resolveStep _
          · intro d
            exact countComplete_runScrape _ _ _ _
  · rfl

theorem countComplete_emptyLog (env : TaskEnv) (rs : List Json) :
    countComplete (emptyLog env rs).1 = 0 := by
  unfold emptyLog
  split
  · apply countComplete_andThen_zero
    · rw [countComplete_liftStep]; rfl
    · intro a
      rw [countComplete_liftStep]; rfl
  · rfl

theorem countComplete_submitStage (env : TaskEnv) (rs : List Json) :
    countComplete (submitStage env rs).1 = 0 := by
  unfold submitStage
  split
  · rfl
  · cases formatResumes env.digest rs with
    | error e => rfl
    | ok n => cases env.submitOutcome <;> rfl

theorem countComplete_analysisStage (env : TaskEnv) :
    countComplete (analysisStage env).1 = 0 := by
  unfold analysisStage
  split
  · cases env.searchQuery with
    | error e => rfl
    | ok hits =>
        dsimp only
        split <;> rfl
  · rfl

theorem taskBody_no_complete_of_cancelled (env : TaskEnv)
    (hcok : env.completeOk ≠ .error .cancelled)
    (h : (taskBody env).2 = .error .cancelled) :
    countComplete (taskBody env).1 = 0 := by
  rw [taskBody] at h ⊢
  cases h1 : (on_progress env.progressOutcome 0 0).2 with
  | error e =>
      simp only [countComplete_andThen, countComplete_on_progress, h1]
  | ok u =>
      rw [result_andThen] at h
      simp only [h1] at h
      rw [countComplete_andThen, countComplete_on_progress]
      simp only [h1, Nat.zero_add]
      cases h2 : (liftStep env.sessionOpen [QEv.openSession]).2 with
      | error e =>
          simp only [countComplete_andThen, countComplete_liftStep, h2]
          rfl
      | ok u2 =>
          rw [result_andThen] at h
          simp only [h2] at h
          rw [countComplete_andThen, countComplete_liftStep]
          simp only [h2]
          show 0 + _ = 0
          rw [Nat.zero_add]
          cases h3 : (liftStep env.urlEval []).2 with
          | error e =>
              simp only [countComplete_andThen, countComplete_liftStep, h3]
              rfl
          | ok u3 =>
              rw [result_andThen] at h
              simp only [h3] at h
              rw [countComplete_andThen, countComplete_liftStep]
              simp only [h3]
              show 0 + _ = 0
              rw [Nat.zero_add]
              cases h4 : (runScrape env.page1 env.progressOutcome env.limit env.maxPages).2 with
              | error e =>
                  simp only [countComplete_andThen, countComplete_runScrape, h4]
              | ok rs1 =>
                  rw [result_andThen] at h
                  simp only [h4] at h
                  rw [countComplete_andThen, countComplete_runScrape]
                  simp only [h4, Nat.zero_add]
                  cases h5 : (retryStage env rs1).2 with
                  | error e =>
                      simp only [countComplete_andThen, countComplete_retryStage, h5]
                  | ok rs =>
                      rw [result_andThen] at h
                      simp only [h5] at h
                      rw [countComplete_andThen, countComplete_retryStage]
                      simp only [h5, Nat.zero_add]
                      cases h6 : (emptyLog env rs).2 with
                      | error e =>
                          simp only [countComplete_andThen, countComplete_emptyLog, h6]
                      | ok u6 =>
                          rw [result_andThen] at h
                          simp only [h6] at h
                          rw [countComplete_andThen, countComplete_emptyLog]
                          simp only [h6, Nat.zero_add]
                          cases h7 : (submitStage env rs).2 with
                          | error e =>
                              simp only [countComplete_andThen, countComplete_submitStage, h7]
                          | ok u7 =>
                              rw [result_andThen] at h
                              simp only [h7] at h
                              rw [countComplete_andThen, countComplete_submitStage]
                              simp only [h7, Nat.zero_add]
                              cases h8 : (analysisStage env).2 with
                              | error e =>
                                  simp only [countComplete_andThen, countComplete_analysisStage, h8]
                              | ok u8 =>
                                  rw [result_andThen] at h
                                  simp only [h8] at h
                                  rw [countComplete_andThen, countComplete_analysisStage]
                                  simp only [h8, Nat.zero_add]
                                  cases h9 : (completeStage env).2 with
                                  | ok u9 =>
                                      rw [result_andThen] at h
                                      simp only [h9] at h
                                      simp at h
                                  | error e =>
                                      exfalso
                                      have he : e = PyExc.cancelled := by
                                        rw [result_andThen] at h
                                        simpa [h9] using h
                                      unfold completeStage at h9
                                      cases hc : env.completeOk with
                                      | ok u9 => simp only [hc] at h9; cases h9
                                      | error e2 =>
                                          simp only [hc] at h9
                                          have : e2 = e := by simpa using h9
                                          exact hcok (by rw [hc, this, he])

/-- C3: a `CancellationError` raised from the progress callback stops
extraction immediately — the orchestrator's trace ends at that progress
invocation, so no further `goToNextPage` call is issued after it — and the
worker then sends an `idle` heartbeat and never calls `complete` for the
task. -/
theorem C3_cancellation_stops :
    (∀ (env : ScrapeEnv) (limit maxPages : Nat) (ae cb : Bool), env.noCancel →
      (execute_scrape_job env limit maxPages ae cb).2 = .error .cancelled →
      ∃ tr c pg, (execute_scrape_job env limit maxPages ae cb).1 = tr ++ [Ev.progress c pg]) ∧
    (∀ env : TaskEnv, env.parse = .ok () → env.completeOk ≠ .error .cancelled →
      (taskBody env).2 = .error .cancelled →
      process_task env =
        ([QEv.hb "processing" none] ++ (taskBody env).1 ++ [QEv.hb "idle" none], .ok ()) ∧
      countComplete (process_task env).1 = 0) := by
  constructor
  · intro env l m ae cb hnc h
    exact execute_cancelled_ends_progress env l m ae cb hnc h
  · intro env hparse hcok h
    have h1 : process_task env =
        ([QEv.hb "processing" none] ++ (taskBody env).1 ++ [QEv.hb "idle" none], .ok ()) := by
      simp [process_task, hparse, h]
    refine ⟨h1, ?_⟩
    rw [h1]
    show countComplete ([QEv.hb "processing" none] ++ (taskBody env).1 ++ [QEv.hb "idle" none]) = 0
    rw [countComplete_append, countComplete_append,
        taskBody_no_complete_of_cancelled env hcok h]
    rfl

/-- Witness for C3: the cancellation-on-page-2 task environment. -/
theorem C3_cancellation_stops_witness :
    process_task envC3w =
      ([QEv.hb "processing" none] ++ (taskBody envC3w).1 ++ [QEv.hb "idle" none], .ok ()) ∧
    countComplete (process_task envC3w).1 = 0 :=
  C3_cancellation_stops.2 envC3w rfl (by intro hc; simp [envC3w] at hc) rfl

theorem foldEvents_cons (ctxs : Registry) (mp : String × Option Json)
    (evs : List (String × Option Json)) :
    foldEvents ctxs (mp :: evs) = foldEvents (_handle_event ctxs mp.1 mp.2) evs := rfl

theorem callRecv_shape (method : String) (rid deadline : Nat) (closesAt : Option Nat) :
    ∀ (frames : List (Nat × Frame)) (now : Nat) (ctxs : Registry)
      (evs : List (String × Option Json)) (dr : List (Nat × Option Json)),
      ∃ newEvs newDr,
        (callRecv method rid deadline closesAt now ctxs evs dr frames).events = evs ++ newEvs ∧
        (callRecv method rid deadline closesAt now ctxs evs dr frames).dropped = dr ++ newDr ∧
        (callRecv method rid deadline closesAt now ctxs evs dr frames).contexts =
          foldEvents ctxs newEvs := by
  intro frames
  induction frames with
  | nil =>
      intro now ctxs evs dr
      refine ⟨[], [], ?_⟩
      cases closesAt with
      | none => simp [callRecv, timeoutOut, foldEvents]
      | some t =>
          by_cases ht : t < deadline
          · simp [callRecv, ht, foldEvents]
          · simp [callRecv, ht, timeoutOut, foldEvents]
  | cons pair rest ih =>
      intro now ctxs evs dr
      obtain ⟨a, f⟩ := pair
      by_cases h1 : deadline ≤ now
      · exact ⟨[], [], by simp [callRecv, h1, timeoutOut, foldEvents]⟩
      · by_cases h2 : deadline ≤ a
        · exact ⟨[], [], by simp [callRecv, h1, h2, timeoutOut, foldEvents]⟩
        · cases f with
          | event m p =>
              obtain ⟨newEvs, newDr, he, hd, hc⟩ := ih a (_handle_event ctxs m p) (evs ++ [(m, p)]) dr
              refine ⟨(m, p) :: newEvs, newDr, ?_, ?_, ?_⟩
              · simp only [callRecv, if_neg h1, if_neg h2]
                rw [he]
                simp
              · simp only [callRecv, if_neg h1, if_neg h2]
                exact hd
              · simp only [callRecv, if_neg h1, if_neg h2]
                rw [hc, foldEvents_cons]
          | response i res herr =>
              by_cases h3 : i = rid
              · subst h3
                cases herr with
                | true => exact ⟨[], [], by simp [callRecv, h1, h2, foldEvents]⟩
                | false => exact ⟨[], [], by simp [callRecv, h1, h2, foldEvents]⟩
              · obtain ⟨newEvs, newDr, he, hd, hc⟩ := ih a ctxs evs (dr ++ [(i, res)])
                refine ⟨newEvs, (i, res) :: newDr, ?_, ?_, ?_⟩
                · simp only [callRecv, if_neg h1, if_neg h2, if_neg h3]
                  exact he
                · simp only [callRecv, if_neg h1, if_neg h2, if_neg h3]
                  rw [hd]
                  simp
                · simp only [callRecv, if_neg h1, if_neg h2, if_neg h3]
                  exact hc

theorem callRecv_match (method : String) (rid deadline : Nat) (closesAt : Option Nat)
    (t : Nat) (v : Option Json) (herr : Bool) (post : List (Nat × Frame)) :
    ∀ (pre : List (Nat × Frame)) (now : Nat) (ctxs : Registry)
      (evs : List (String × Option Json)) (dr : List (Nat × Option Json)),
      (∀ x ∈ pre, x.1 < deadline ∧ nonMatchingB rid x.2 = true) →
      now < deadline → t < deadline →
      callRecv method rid deadline closesAt now ctxs evs dr
          (pre ++ (t, .response rid v herr) :: post) =
        ⟨if herr then .error (.cdp (method ++ " failed")) else .ok (pyOrEmptyObj v),
         foldEvents ctxs (eventsOf pre), evs ++ eventsOf pre, dr ++ droppedOf pre⟩ := by
  intro pre
  induction pre with
  | nil =>
      intro now ctxs evs dr _ hnow ht
      have h1 : ¬ deadline ≤ now := not_le.mpr hnow
      have h2 : ¬ deadline ≤ t := not_le.mpr ht
      cases herr with
      | true => simp [callRecv, h1, h2, eventsOf, droppedOf, foldEvents]
      | false => simp [callRecv, h1, h2, eventsOf, droppedOf, foldEvents]
  | cons pair rest ih =>
      intro now ctxs evs dr hpre hnow ht
      obtain ⟨a, f⟩ := pair
      have hx := hpre (a, f) (List.mem_cons_self _ _)
      have h1 : ¬ deadline ≤ now := not_le.mpr hnow
      have h2 : ¬ deadline ≤ a := not_le.mpr hx.1
      have hrest : ∀ x ∈ rest, x.1 < deadline ∧ nonMatchingB rid x.2 = true :=
        fun x hxm => hpre x (List.mem_cons_of_mem _ hxm)
      cases f with
      | event m p =>
          rw [List.cons_append, callRecv]
          simp only [if_neg h1, if_neg h2]
          rw [ih a (_handle_event ctxs m p) (evs ++ [(m, p)]) dr hrest hx.1 ht]
          simp [eventsOf, droppedOf, foldEvents_cons]
      | response i res herr2 =>
          have hne : i ≠ rid := by
            have := hx.2
            simpa [nonMatchingB] using this
          rw [List.cons_append, callRecv]
          simp only [if_neg h1, if_neg h2, if_neg hne]
          rw [ih a ctxs evs (dr ++ [(i, res)]) hrest hx.1 ht]
          simp [droppedOf, eventsOf]

theorem callRecv_timeout (method : String) (rid deadline : Nat) (closesAt : Option Nat)
    (hclose : match closesAt with | none => True | some tc => deadline ≤ tc) :
    ∀ (frames : List (Nat × Frame)) (now : Nat) (ctxs : Registry)
      (evs : List (String × Option Json)) (dr : List (Nat × Option Json)),
      (∀ x ∈ frames, matchingB rid x.2 = true → deadline ≤ x.1) →
      (callRecv method rid deadline closesAt now ctxs evs dr frames).result =
        .error (.cdp ("Timeout waiting for " ++ method)) := by
  intro frames
  induction frames with
  | nil =>
      intro now ctxs evs dr _
      cases closesAt with
      | none => simp [callRecv, timeoutOut]
      | some tc =>
          have : ¬ tc < deadline := not_lt.mpr hclose
          simp [callRecv, this, timeoutOut]
  | cons pair rest ih =>
      intro now ctxs evs dr hfr
      obtain ⟨a, f⟩ := pair
      by_cases h1 : deadline ≤ now
      · simp [callRecv, h1, timeoutOut]
      · by_cases h2 : deadline ≤ a
        · simp [callRecv, h1, h2, timeoutOut]
        · cases f with
          | event m p =>
              rw [callRecv]
              simp only [if_neg h1, if_neg h2]
              exact ih a _ _ _ (fun x hx => hfr x (List.mem_cons_of_mem _ hx))
          | response i res herr =>
              by_cases h3 : i = rid
              · exfalso
                apply h2
                apply hfr (a, .response i res herr) (List.mem_cons_self _ _)
                simp [matchingB, h3]
              · rw [callRecv]
                simp only [if_neg h1, if_neg h2, if_neg h3]
                exact ih a _ _ _ (fun x hx => hfr x (List.mem_cons_of_mem _ hx))

theorem callRecv_close (method : String) (rid deadline tc : Nat) :
    ∀ (frames : List (Nat × Frame)) (now : Nat) (ctxs : Registry)
      (evs : List (String × Option Json)) (dr : List (Nat × Option Json)),
      (∀ x ∈ frames, x.1 < deadline ∧ nonMatchingB rid x.2 = true) →
      now < deadline → tc < deadline →
      (callRecv method rid deadline (some tc) now ctxs evs dr frames).result =
        .error .connClosed := by
  intro frames
  induction frames with
  | nil =>
      intro now ctxs evs dr _ _ htc
      simp [callRecv, htc]
  | cons pair rest ih =>
      intro now ctxs evs dr hfr hnow htc
      obtain ⟨a, f⟩ := pair
      have hx := hfr (a, f) (List.mem_cons_self _ _)
      have h1 : ¬ deadline ≤ now := not_le.mpr hnow
      have h2 : ¬ deadline ≤ a := not_le.mpr hx.1
      have hrest : ∀ x ∈ rest, x.1 < deadline ∧ nonMatchingB rid x.2 = true :=
        fun x hxm => hfr x (List.mem_cons_of_mem _ hxm)
      cases f with
      | event m p =>
          rw [callRecv]
          simp only [if_neg h1, if_neg h2]
          exact ih a _ _ _ hrest hx.1 htc
      | response i res herr =>
          have hne : i ≠ rid := by simpa [nonMatchingB] using hx.2
          rw [callRecv]
          simp only [if_neg h1, if_neg h2, if_neg hne]
          exact ih a _ _ _ hrest hx.1 htc

/-- C4: amended event-dispatch property of CDPClient.call. (a) The context
registry returned by a call always equals the fold of `_handle_event` over the
events the call dispatched, starting from the initial registry. (b) When a
response matching the request id arrives before the deadline, preceded only by
non-matching frames, the call returns its result, dispatches exactly the
events among those frames, and records the non-matching responses among them
as dropped (the code discards them after a debug log; they are not queued). -/
theorem C4_event_dispatch :
    (∀ (method : String) (rid timeout : Nat) (frames : List (Nat × Frame))
        (closesAt : Option Nat) (ctxs : Registry),
      (CDPClient_call method rid timeout frames closesAt ctxs).contexts =
        foldEvents ctxs (CDPClient_call method rid timeout frames closesAt ctxs).events) ∧
    (∀ (method : String) (rid timeout : Nat) (closesAt : Option Nat) (ctxs : Registry)
        (pre : List (Nat × Frame)) (t : Nat) (v : Option Json) (post : List (Nat × Frame)),
      (∀ x ∈ pre, x.1 < timeout ∧ nonMatchingB rid x.2 = true) → 0 < timeout → t < timeout →
      CDPClient_call method rid timeout (pre ++ (t, .response rid v false) :: post) closesAt ctxs =
        ⟨.ok (pyOrEmptyObj v), foldEvents ctxs (eventsOf pre), eventsOf pre, droppedOf pre⟩) := by
  constructor
  · intro method rid timeout frames closesAt ctxs
    obtain ⟨newEvs, newDr, he, _, hc⟩ :=
      callRecv_shape method rid timeout closesAt frames 0 ctxs [] []
    rw [CDPClient_call, hc, he]
    simp
  · intro method rid timeout closesAt ctxs pre t v post hpre h0 ht
    rw [CDPClient_call, callRecv_match method rid timeout closesAt t v false post pre 0 ctxs [] [] hpre h0 ht]
    simp

/-- C4 counterexample to the literal claim that no response is dropped: a
response whose id does not match the pending request id is discarded by
`_recv`; the matching response that follows is still returned. -/
theorem C4_counterexample :
    (CDPClient_call "M" 1 10
        [(1, .response 99 (some (.int 7)) false), (2, .response 1 (some (.int 5)) false)]
        none []).dropped = [(99, some (.int 7))] ∧
    (CDPClient_call "M" 1 10
        [(1, .response 99 (some (.int 7)) false), (2, .response 1 (some (.int 5)) false)]
        none []).result = .ok (.int 5) := ⟨rfl, rfl⟩

theorem C4_event_dispatch_witness :
    CDPClient_call "M" 7 10
        [(1, Frame.event "Runtime.executionContextsCleared" none),
         (2, Frame.response 7 (some (.int 3)) false)] none [(Json.int 1, Json.obj [])] =
      ⟨.ok (pyOrEmptyObj (some (.int 3))),
       foldEvents [(Json.int 1, Json.obj [])]
         (eventsOf [(1, Frame.event "Runtime.executionContextsCleared" none)]),
       eventsOf [(1, Frame.event "Runtime.executionContextsCleared" none)],
       droppedOf [(1, Frame.event "Runtime.executionContextsCleared" none)]⟩ :=
  C4_event_dispatch.2 "M" 7 10 none [(Json.int 1, Json.obj [])]
    [(1, Frame.event "Runtime.executionContextsCleared" none)] 2 (some (.int 3)) []
    (by decide) (by decide) (by decide)

/-- C8: amended failure modes of CDPClient.call. (a) If the socket never
closes before the deadline and no frame matching the request id arrives
before the deadline, the call raises CDPError "Timeout waiting for <method>".
(b) If a matching response arrives in time but carries an error field, the
call raises CDPError "<method> failed". (c) If the socket closes before the
deadline and every frame before the close point is non-matching, the call
propagates ConnectionClosed -- not CDPError as the spec claims. -/
theorem C8_call_failure_modes :
    (∀ (method : String) (rid timeout : Nat) (frames : List (Nat × Frame))
        (closesAt : Option Nat) (ctxs : Registry),
      (match closesAt with | none => True | some tc => timeout ≤ tc) →
      (∀ x ∈ frames, matchingB rid x.2 = true → timeout ≤ x.1) →
      (CDPClient_call method rid timeout frames closesAt ctxs).result =
        .error (.cdp ("Timeout waiting for " ++ method))) ∧
    (∀ (method : String) (rid timeout : Nat) (closesAt : Option Nat) (ctxs : Registry)
        (pre : List (Nat × Frame)) (t : Nat) (v : Option Json) (post : List (Nat × Frame)),
      (∀ x ∈ pre, x.1 < timeout ∧ nonMatchingB rid x.2 = true) → 0 < timeout → t < timeout →
      (CDPClient_call method rid timeout (pre ++ (t, .response rid v true) :: post) closesAt ctxs).result =
        .error (.cdp (method ++ " failed"))) ∧
    (∀ (method : String) (rid timeout tc : Nat) (frames : List (Nat × Frame)) (ctxs : Registry),
      (∀ x ∈ frames, x.1 < timeout ∧ nonMatchingB rid x.2 = true) → 0 < timeout → tc < timeout →
      (CDPClient_call method rid timeout frames (some tc) ctxs).result = .error .connClosed) := by
  refine ⟨?_, ?_, ?_⟩
  · intro method rid timeout frames closesAt ctxs hclose hfr
    exact callRecv_timeout method rid timeout closesAt hclose frames 0 ctxs [] [] hfr
  · intro method rid timeout closesAt ctxs pre t v post hpre h0 ht
    rw [CDPClient_call,
      callRecv_match method rid timeout closesAt t v true post pre 0 ctxs [] [] hpre h0 ht]
    simp
  · intro method rid timeout tc frames ctxs hfr h0 htc
    exact callRecv_close method rid timeout tc frames 0 ctxs [] [] hfr h0 htc

/-- C8 counterexample to the literal claim: a socket close during the wait
surfaces as ConnectionClosed, which is not a CDPError. -/
theorem C8_counterexample :
    (CDPClient_call "Runtime.evaluate" 1 20 [] (some 0) []).result = .error .connClosed ∧
    isCdpError (CDPClient_call "Runtime.evaluate" 1 20 [] (some 0) []).result = false := ⟨rfl, rfl⟩

theorem C8_call_failure_modes_witness :
    (CDPClient_call "A" 1 5 [] none []).result = .error (.cdp ("Timeout waiting for " ++ "A")) ∧
    (CDPClient_call "B" 2 5 [(1, Frame.response 2 none true)] none []).result =
      .error (.cdp ("B" ++ " failed")) ∧
    (CDPClient_call "C" 3 5 [] (some 1) []).result = .error .connClosed :=
  ⟨C8_call_failure_modes.1 "A" 1 5 [] none [] trivial (by simp),
   C8_call_failure_modes.2.1 "B" 2 5 none [] [] 1 none [] (by simp) (by decide) (by decide),
   C8_call_failure_modes.2.2 "C" 3 5 1 [] [] (by simp) (by decide) (by decide)⟩


theorem countRetry_nil : countRetry [] = 0 := rfl

theorem countRetry_append (a b : List QEv) :
    countRetry (a ++ b) = countRetry a + countRetry b := by
  simp [countRetry, List.countP_append]

theorem countRetry_andThen {α β : Type} (x : List QEv × Except PyExc α)
    (f : α → List QEv × Except PyExc β) :
    countRetry (andThen x f).1 =
      countRetry x.1 +
        (match x.2 with
         | .ok a => countRetry (f a).1
         | .error _ => 0) := by
  cases hx : x.2 with
  | error e => simp [andThen, hx]
  | ok a => simp [andThen, hx, countRetry_append]

theorem countRetry_on_progress (o : Nat → Nat → Except PyExc Unit) (c p : Nat) :
    countRetry (on_progress o c p).1 = 0 := by
  cases ho : o c p with
  | ok u => simp [on_progress, ho, countRetry]
  | error e => cases e <;> simp [on_progress, ho, countRetry]

theorem countRetry_liftStep (x : Except PyExc Unit) (evs : List QEv) :
    countRetry (liftStep x evs).1 = countRetry evs := by
  cases x <;> rfl

theorem countRetry_orch (l : List Ev) : countRetry (l.map QEv.orch) = 0 := by
  apply List.countP_eq_zero.mpr
  intro a ha
  obtain ⟨e, _, he⟩ := List.mem_map.mp ha
  subst he
  simp

theorem countRetry_runScrape (pg : PageIO) (cb : Nat → Nat → Except PyExc Unit)
    (limit maxPages : Nat) :
    countRetry (runScrape pg cb limit maxPages).1 = 0 := by
  simp [runScrape, countRetry_orch]

theorem countRetry_andThen_zero {α β : Type} (x : List QEv × Except PyExc α)
    (f : α → List QEv × Except PyExc β) (hx : countRetry x.1 = 0)
    (hf : ∀ a, countRetry (f a).1 = 0) :
    countRetry (andThen x f).1 = 0 := by
  rw [countRetry_andThen, hx]
  cases hx2 : x.2 <;> simp [hf]

theorem countRetry_waitReadyStep (polls : List (Except PyExc (Option Json))) :
    countRetry (waitReadyStep polls).1 = 0 := by
  unfold waitReadyStep
  cases wait_for polls none <;> rfl

theorem countRetry_resolveStep (r : Except PyExc Bool) :
    countRetry (resolveStep r).1 = 0 := by
  unfold resolveStep
  rcases r with e | b
  · rfl
  · cases b <;> rfl

theorem countRetry_retryTail (env : TaskEnv) :
    countRetry (andThen (liftStep env.navigate [.retryNav]) (fun _ =>
      andThen (waitReadyStep env.readyPolls) (fun _ =>
      andThen (resolveStep env.resolveAccessor) (fun _ =>
      runScrape env.page2 env.progressOutcome env.limit env.maxPages)))).1 = 1 := by
  rw [countRetry_andThen, countRetry_liftStep]
  have hrest : ∀ a : Unit,
      countRetry (andThen (waitReadyStep env.readyPolls) (fun _ =>
        andThen (resolveStep env.resolveAccessor) (fun _ =>
        runScrape env.page2 env.progressOutcome env.limit env.maxPages))).1 = 0 := by
    intro a
    apply countRetry_andThen_zero
    · exact countRetry_waitReadyStep _
    · intro b
      apply countRetry_andThen_zero
      · exact countRetry_resolveStep _
      · intro c
        exact countRetry_runScrape _ _ _ _
  have h1 : countRetry [QEv.retryNav] = 1 := rfl
  cases hn : (liftStep env.navigate [.retryNav]).2 with
  | error e => simp [h1]
  | ok a => simp [h1, hrest a]

theorem countRetry_retryStage_empty (env : TaskEnv)
    (hst : env.statusEval1 = .ok ()) :
    countRetry (retryStage env []).1 = 1 := by
  have hx : (liftStep env.statusEval1 []).2 = Except.ok () := by
    rw [hst]
    rfl
  unfold retryStage
  rw [if_pos (by rfl)]
  rw [countRetry_andThen, countRetry_liftStep, countRetry_nil]
  simp only [hx]
  rw [countRetry_retryTail]

theorem countRetry_retryStage_le (env : TaskEnv) (rs : List Json) :
    countRetry (retryStage env rs).1 ≤ 1 := by
  unfold retryStage
  split
  · rw [countRetry_andThen, countRetry_liftStep, countRetry_nil]
    cases hst : (liftStep env.statusEval1 []).2
    · simp
    · simp only [countRetry_retryTail]
      simp
  · simp [countRetry_nil]

theorem countRetry_retryStage_nonempty (env : TaskEnv) (rs : List Json)
    (h : rs.isEmpty = false) :
    countRetry (retryStage env rs).1 = 0 := by
  unfold retryStage
  rw [if_neg (by simp [h])]
  rfl

theorem countRetry_emptyLog (env : TaskEnv) (rs : List Json) :
    countRetry (emptyLog env rs).1 = 0 := by
  unfold emptyLog
  split
  · apply countRetry_andThen_zero
    · rw [countRetry_liftStep]; rfl
    · intro a
      rw [countRetry_liftStep]; rfl
  · rfl

theorem countRetry_submitStage (env : TaskEnv) (rs : List Json) :
    countRetry (submitStage env rs).1 = 0 := by
  unfold submitStage
  split
  · rfl
  · cases formatResumes env.digest rs with
    | error e => rfl
    | ok n => cases env.submitOutcome <;> rfl

theorem countRetry_analysisStage (env : TaskEnv) :
    countRetry (analysisStage env).1 = 0 := by
  unfold analysisStage
  split
  · cases env.searchQuery with
    | error e => rfl
    | ok hits =>
        dsimp only
        split <;> rfl
  · rfl

theorem countRetry_completeStage (env : TaskEnv) :
    countRetry (completeStage env).1 = 0 := by
  unfold completeStage
  cases env.completeOk <;> rfl

theorem countRetry_postRetryChain (env : TaskEnv) (resumes : List Json) :
    countRetry (andThen (emptyLog env resumes) (fun _ =>
      andThen (submitStage env resumes) (fun _ =>
      andThen (analysisStage env) (fun _ =>
      andThen (completeStage env) (fun _ =>
      ([.hb "idle" none], .ok ())))))).1 = 0 := by
  apply countRetry_andThen_zero
  · exact countRetry_emptyLog _ _
  · intro a
    apply countRetry_andThen_zero
    · exact countRetry_submitStage _ _
    · intro b
      apply countRetry_andThen_zero
      · exact countRetry_analysisStage _
      · intro c
        apply countRetry_andThen_zero
        · exact countRetry_completeStage _
        · intro d
          rfl

theorem countRetry_andThen_le {α β : Type} (x : List QEv × Except PyExc α)
    (f : α → List QEv × Except PyExc β) (n : Nat) (hx : countRetry x.1 = 0)
    (hf : ∀ a, countRetry (f a).1 ≤ n) :
    countRetry (andThen x f).1 ≤ n := by
  rw [countRetry_andThen, hx]
  cases hx2 : x.2 with
  | error e => simp
  | ok a => simpa using hf a

theorem countRetry_taskBody_le (env : TaskEnv) :
    countRetry (taskBody env).1 ≤ 1 := by
  rw [taskBody]
  apply countRetry_andThen_le _ _ 1 (countRetry_on_progress _ _ _)
  intro a
  apply countRetry_andThen_le _ _ 1 (by rw [countRetry_liftStep]; rfl)
  intro b
  apply countRetry_andThen_le _ _ 1 (by rw [countRetry_liftStep]; rfl)
  intro c
  apply countRetry_andThen_le _ _ 1 (countRetry_runScrape _ _ _ _)
  intro resumes1
  rw [countRetry_andThen]
  have h2 := countRetry_retryStage_le env resumes1
  cases hr : (retryStage env resumes1).2 with
  | error e => simpa using h2
  | ok resumes =>
      simpa [countRetry_postRetryChain env resumes] using h2

theorem countRetry_taskBody_retry (env : TaskEnv)
    (hpr : env.progressOutcome 0 0 = .ok ())
    (hs : env.sessionOpen = .ok ()) (hu : env.urlEval = .ok ())
    (hrs : (runScrape env.page1 env.progressOutcome env.limit env.maxPages).2 = .ok [])
    (hst : env.statusEval1 = .ok ()) :
    countRetry (taskBody env).1 = 1 := by
  have h1 : (on_progress env.progressOutcome 0 0).2 = Except.ok () := by
    simp [on_progress, hpr]
  have h2 : (liftStep env.sessionOpen [.openSession]).2 = Except.ok () := by
    rw [hs]
    rfl
  have h3 : (liftStep env.urlEval []).2 = Except.ok () := by
    rw [hu]
    rfl
  have hos : countRetry [QEv.openSession] = 0 := rfl
  rw [taskBody]
  rw [countRetry_andThen, countRetry_on_progress]
  simp only [h1, Nat.zero_add]
  rw [countRetry_andThen, countRetry_liftStep]
  simp only [h2, hos, Nat.zero_add]
  rw [countRetry_andThen, countRetry_liftStep, countRetry_nil]
  simp only [h3, Nat.zero_add]
  rw [countRetry_andThen, countRetry_runScrape]
  simp only [hrs, Nat.zero_add]
  rw [countRetry_andThen, countRetry_retryStage_empty env hst]
  cases hr : (retryStage env []).2 with
  | error e => simp
  | ok resumes => simp [countRetry_postRetryChain env resumes]

theorem countRetry_taskBody_noretry (env : TaskEnv) (resumes : List Json)
    (hpr : env.progressOutcome 0 0 = .ok ())
    (hs : env.sessionOpen = .ok ()) (hu : env.urlEval = .ok ())
    (hrs : (runScrape env.page1 env.progressOutcome env.limit env.maxPages).2 =
      .ok resumes)
    (hne : resumes.isEmpty = false) :
    countRetry (taskBody env).1 = 0 := by
  have h1 : (on_progress env.progressOutcome 0 0).2 = Except.ok () := by
    simp [on_progress, hpr]
  have h2 : (liftStep env.sessionOpen [.openSession]).2 = Except.ok () := by
    rw [hs]
    rfl
  have h3 : (liftStep env.urlEval []).2 = Except.ok () := by
    rw [hu]
    rfl
  have hos : countRetry [QEv.openSession] = 0 := rfl
  rw [taskBody]
  rw [countRetry_andThen, countRetry_on_progress]
  simp only [h1, Nat.zero_add]
  rw [countRetry_andThen, countRetry_liftStep]
  simp only [h2, hos, Nat.zero_add]
  rw [countRetry_andThen, countRetry_liftStep, countRetry_nil]
  simp only [h3, Nat.zero_add]
  rw [countRetry_andThen, countRetry_runScrape]
  simp only [hrs, Nat.zero_add]
  rw [countRetry_andThen, countRetry_retryStage_nonempty env resumes hne]
  cases hr : (retryStage env resumes).2 with
  | error e => simp
  | ok resumes2 => simp [countRetry_postRetryChain env resumes2]

theorem countRetry_process_task (env : TaskEnv) (hp : env.parse = .ok ()) :
    countRetry (process_task env).1 = countRetry (taskBody env).1 := by
  rw [process_task]
  simp only [hp]
  cases hb : (taskBody env).2 with
  | ok u => simp [countRetry, List.countP_append, List.countP_cons]
  | error e =>
      cases e <;> cases hc : env.completeFailOutcome <;>
        simp [PyExc.isException, countRetry, List.countP_append, List.countP_cons]

/-- C2: amended retry condition. (a) The hard-navigation retry runs exactly
once when the whole first scrape attempt returns an empty record list (not
merely an empty first page) and the pre-retry status eval succeeds. (b) It
does not run at all when the first attempt returns any records, even if its
first page yielded zero. (c) No execution of `process_task` ever performs the
retry more than once. -/
theorem C2_retry_condition :
    (∀ env : TaskEnv,
      env.parse = .ok () → env.progressOutcome 0 0 = .ok () →
      env.sessionOpen = .ok () → env.urlEval = .ok () →
      (runScrape env.page1 env.progressOutcome env.limit env.maxPages).2 = .ok [] →
      env.statusEval1 = .ok () →
      countRetry (process_task env).1 = 1) ∧
    (∀ (env : TaskEnv) (resumes : List Json),
      env.parse = .ok () → env.progressOutcome 0 0 = .ok () →
      env.sessionOpen = .ok () → env.urlEval = .ok () →
      (runScrape env.page1 env.progressOutcome env.limit env.maxPages).2 = .ok resumes →
      resumes.isEmpty = false →
      countRetry (process_task env).1 = 0) ∧
    (∀ env : TaskEnv, countRetry (process_task env).1 ≤ 1) := by
  refine ⟨?_, ?_, ?_⟩
  · intro env hp hpr hs hu hrs hst
    rw [countRetry_process_task env hp]
    exact countRetry_taskBody_retry env hpr hs hu hrs hst
  · intro env resumes hp hpr hs hu hrs hne
    rw [countRetry_process_task env hp]
    exact countRetry_taskBody_noretry env resumes hpr hs hu hrs hne
  · intro env
    cases hp : env.parse with
    | error e => simp [process_task, hp, countRetry]
    | ok u =>
        cases u
        rw [countRetry_process_task env hp]
        exact countRetry_taskBody_le env

/-- C2 counterexample to the literal claim: in `envC2cex` the first page of
the first attempt yields zero records, yet the attempt as a whole returns
five, so no hard-navigation retry happens. -/
theorem C2_counterexample :
    envC2cex.page1.extractEval 1 = .ok (some (.arr [])) ∧
    (runScrape envC2cex.page1 envC2cex.progressOutcome envC2cex.limit envC2cex.maxPages).2 =
      .ok (List.replicate 5 (.obj [("name", Json.str "r")])) ∧
    countRetry (process_task envC2cex).1 = 0 := ⟨rfl, rfl, rfl⟩

theorem C2_retry_condition_witness :
    countRetry (process_task envC2w).1 = 1 :=
  C2_retry_condition.1 envC2w rfl rfl rfl rfl rfl rfl

/-- C9: amended error handling. (a) An `Exception` other than
`CancellationError` raised inside `process_task`'s `try` body produces, in
order: an error heartbeat with the message, a `complete(status="failed")`
call with the message, and an idle heartbeat only if that `complete` call
itself succeeds. (b) Exceptions from the config parse, which runs before the
`try`, skip that sequence entirely and propagate. (c) A claim-time exception
in the worker loop is caught: the loop heartbeats error, sleeps, and
continues. (d) An exception escaping `process_task` is caught the same way
and the loop continues. -/
theorem C9_error_handling :
    (∀ (env : TaskEnv) (e : PyExc),
      env.parse = .ok () → (taskBody env).2 = .error e →
      e.isException = true → e ≠ .cancelled →
      process_task env =
        ([.hb "processing" none] ++ (taskBody env).1 ++
           [.hb "error" (some e.msg), .complete "failed" (some e.msg)] ++
           (match env.completeFailOutcome with
            | .ok _ => [QEv.hb "idle" none]
            | .error _ => []),
         match env.completeFailOutcome with
         | .ok _ => .ok ()
         | .error e2 => .error e2)) ∧
    (∀ (env : TaskEnv) (e : PyExc),
      env.parse = .error e →
      process_task env = ([.hb "processing" none], .error e)) ∧
    (∀ (e : PyExc) (rest : List IterEnv),
      e.isException = true → e ≠ .keyboard →
      worker_loop (.claimErr e :: rest) =
        [.hb "idle" none, .hb "error" (some e.msg), .sleep] ++ worker_loop rest) ∧
    (∀ (t : TaskEnv) (e : PyExc) (rest : List IterEnv),
      (process_task t).2 = .error e →
      e.isException = true → e ≠ .keyboard →
      worker_loop (.task t :: rest) =
        [.hb "idle" none, .hb "processing" none] ++ (process_task t).1 ++
          [.hb "error" (some e.msg), .sleep] ++ worker_loop rest) := by
  refine ⟨?_, ?_, ?_, ?_⟩
  · intro env e hp hb hex hne
    rw [process_task]
    simp only [hp, hb]
    cases e with
    | cancelled => exact absurd rfl hne
    | keyboard => simp [PyExc.isException] at hex
    | cdp m =>
        cases hc : env.completeFailOutcome <;>
          simp [PyExc.isException, PyExc.msg, hc]
    | valueError m =>
        cases hc : env.completeFailOutcome <;>
          simp [PyExc.isException, PyExc.msg, hc]
    | connClosed =>
        cases hc : env.completeFailOutcome <;>
          simp [PyExc.isException, PyExc.msg, hc]
    | queue m =>
        cases hc : env.completeFailOutcome <;>
          simp [PyExc.isException, PyExc.msg, hc]
    | typeErr m =>
        cases hc : env.completeFailOutcome <;>
          simp [PyExc.isException, PyExc.msg, hc]
  · intro env e hp
    rw [process_task]
    simp only [hp]
  · intro e rest hex hk
    rw [worker_loop]
    rw [if_neg hk, if_pos hex]
  · intro t e rest h hex hk
    rw [worker_loop]
    simp only [h]
    rw [if_neg hk, if_pos hex]

/-- C9 counterexample to the literal claim: a config-parse `ValueError` is
raised while processing a claimed task but produces no error heartbeat and no
`complete(status="failed")` call from `process_task`; the worker loop catches
it and moves on. -/
theorem C9_counterexample :
    process_task envC9bad =
      ([.hb "processing" none],
       .error (.valueError "invalid literal for int() with base 10: abc")) ∧
    countComplete (process_task envC9bad).1 = 0 ∧
    worker_loop [.task envC9bad, .noTask] =
      [.hb "idle" none, .hb "processing" none, .hb "processing" none,
       .hb "error" (some "invalid literal for int() with base 10: abc"), .sleep,
       .hb "idle" none, .sleep] := ⟨rfl, rfl, rfl⟩

theorem C9_error_handling_witness :
    worker_loop [.claimErr (.queue "boom")] =
      [.hb "idle" none, .hb "error" (some "boom"), .sleep] ++ worker_loop [] :=
  C9_error_handling.2.2.1 (.queue "boom") [] rfl (by intro h; cases h)


/-- C1: the divergence behind the dead pagination-timeout handler.  On the
failing input `envC1` the page-advance wait runs out of polls with only falsy
observations -- i.e. it times out and returns that falsy value -- yet the
orchestrator does not stop: it advances to the next page and re-scrapes,
accumulating 60 records over three pages instead of returning the 20 records
of the first page.  The `except CDPError: break` that was meant to stop the
loop is unreachable, since `wait_for` never raises `CDPError`. -/
theorem C1_pagination_timeout_divergence :
    wait_for (envC1.advancePolls 1) none = .ok (some (.bool false)) ∧
    (∀ (polls : List (Except PyExc (Option Json))) (last : Option Json) (m : String),
      wait_for polls last ≠ .error (.cdp m)) ∧
    execute_scrape_job envC1 50 10 true true =
      ([.progress 20 1, .goNext, .progress 40 2, .goNext, .progress 60 3],
       .ok (List.replicate 60 (Json.str "r"))) :=
  ⟨rfl, fun polls last m => wait_for_no_cdp polls last m, rfl⟩

/-- C7: the 45-record scenario.  With limit 50, maxPages 3 and pages
yielding 20, 20 and 5 records, `execute_scrape_job` returns exactly 45
records, calls the goToNextPage hook exactly twice, and reports progress
(20,1), (40,2), (45,3) in that order. -/
theorem C7_scenario_45_records :
    execute_scrape_job envC7 50 3 true true =
      ([.progress 20 1, .goNext, .progress 40 2, .goNext, .progress 45 3],
       .ok (List.replicate 45 (Json.str "r"))) := rfl

/-- C10 counterexample to the literal claim: a poll that fails with
`ConnectionClosed` makes `wait_for` raise instead of swallowing the error. -/
theorem C10_counterexample :
    wait_for [.error .connClosed] none = .error .connClosed := rfl

/-- C10: amended totality of `wait_for`.  (a) It never raises `CDPError`:
evaluation errors of that class are swallowed and treated as a failed poll.
(b) When every poll is quiet -- falsy or failing with `CDPError` -- it
returns the last observed value at the deadline (`None` if every poll
failed), raising no timeout error.  (c) Any error it does raise is the
verbatim outcome of one of its polls: `ConnectionClosed` and
`CancellationError` propagate, so `wait_for` is not total as claimed. -/
theorem C10_wait_for_behavior :
    (∀ (polls : List (Except PyExc (Option Json))) (last : Option Json) (m : String),
      wait_for polls last ≠ .error (.cdp m)) ∧
    (∀ (polls : List (Except PyExc (Option Json))),
      (∀ q ∈ polls, pollQuiet q) → wait_for polls none = .ok (lastObs none polls)) ∧
    (∀ (polls : List (Except PyExc (Option Json))) (last : Option Json) (e : PyExc),
      wait_for polls last = .error e →
        (Except.error e : Except PyExc (Option Json)) ∈ polls) :=
  ⟨fun polls last m => wait_for_no_cdp polls last m,
   fun polls h => wait_for_quiet polls none h,
   fun polls last e h => wait_for_error_source polls last e h⟩

theorem C10_wait_for_behavior_witness :
    (∀ q ∈ ([.error (.cdp "x"), .ok (some (.bool false))] :
        List (Except PyExc (Option Json))), pollQuiet q) ∧
    wait_for [.error (.cdp "x"), .ok (some (.bool false))] none =
      .ok (lastObs none [.error (.cdp "x"), .ok (some (.bool false))]) ∧
    (Except.error PyExc.connClosed : Except PyExc (Option Json)) ∈
      ([.error .connClosed] : List (Except PyExc (Option Json))) :=
  have hq : ∀ q ∈ ([.error (.cdp "x"), .ok (some (.bool false))] :
      List (Except PyExc (Option Json))), pollQuiet q := by
    intro q hqm
    fin_cases hqm
    · exact trivial
    · exact rfl
  ⟨hq, C10_wait_for_behavior.2.1 _ hq,
   C10_wait_for_behavior.2.2 [.error .connClosed] none .connClosed rfl⟩

